import Mathlib

/-!
# Verification of libtorrent's resume-data codec and auto-manage scheduler

This development shallowly embeds two cores of the libtorrent repository:

* `src/src/write_resume_data.cpp` — the resume-data codec
  (`write_resume_data`, `write_torrent_file`), translated function by
  function into executable Lean definitions;
* the auto-manage scheduler exercised by
  `src/simulation/test_auto_manage.cpp`.  The scheduler implementation
  itself is not part of the excerpted sources, so it is modelled from the
  specification (§4.1 of the spec): periodic 60-second ticks, queue
  classes, slot limits, slow-torrent accounting, pacing and force states.

Machine integers are modelled as `Int`/`Nat`; byte strings as `List Nat`.
-/

namespace LtVerify

/-! ## Bencoded entry model (E)

The C++ `entry` type: integer, byte string, list, dictionary,
preformatted bytes.  Dictionaries are modelled as association lists; all
claims are stated through key lookup, so the internal ordering of
`std::map` is abstracted away. -/

inductive Entry where
  | int (n : Int)
  | str (s : List Nat)
  | list (l : List Entry)
  | dict (d : List (String × Entry))
  | preformatted (bytes : List Nat)
  | undef

/-- Bytes of a textual value (the codec stores text in `std::string`). -/
def strB (s : String) : List Nat := s.data.map Char.toNat

/-- Top-level dictionary under construction: association list. -/
abbrev Dict := List (String × Entry)

/-- `d[k] = v` on a `std::map`: replace the binding if the key is present,
insert it otherwise. -/
def setKey (d : Dict) (k : String) (v : Entry) : Dict :=
  match d with
  | [] => [(k, v)]
  | (k', v') :: rest =>
      if k' = k then (k, v) :: rest else (k', v') :: setKey rest k v

/-- Key lookup in the dictionary. -/
def lookupKey (d : Dict) (k : String) : Option Entry :=
  match d with
  | [] => none
  | (k', v') :: rest => if k' = k then some v' else lookupKey rest k

/-- `d[k].list()` on an absent key default-constructs the entry and turns
it into an empty list; on a present key it leaves the stored list as is. -/
def ensureList (d : Dict) (k : String) : Dict :=
  match lookupKey d k with
  | some _ => d
  | none => setKey d k (.list [])

/-! ## Torrent metadata and add_torrent_params

Only the attributes read by `write_resume_data` are modelled.  Types
owned by collaborating components (`torrent_info`, `file_storage`,
endpoints) are modelled from the spec, since their sources are not part
of this excerpt. -/

/-- Modelled from the spec: one file of the `file_storage` of a torrent:
pad-file flag, size in bytes, and the 32-byte v2 merkle root
(`fs.root_ptr(f)`). -/
structure FileRec where
  pad_file : Bool
  size : Int
  root : List Nat
  deriving DecidableEq, Repr, Inhabited

/-- Modelled from the spec: the `file_storage` interface used by the
codec: `pad_file_at`, `file_size`, `piece_length`, `file_num_blocks`,
`root_ptr`. -/
structure FileStorage where
  piece_length : Int
  files : List FileRec
  deriving DecidableEq, Repr

def FileStorage.pad_file_at (fs : FileStorage) (f : Nat) : Bool :=
  ((fs.files.getD f default).pad_file)

def FileStorage.file_size (fs : FileStorage) (f : Nat) : Int :=
  ((fs.files.getD f default).size)

def FileStorage.root_ptr (fs : FileStorage) (f : Nat) : List Nat :=
  ((fs.files.getD f default).root)

/-- `default_block_size` (16 kiB). -/
def default_block_size : Int := 16384

/-- Modelled from the spec: number of blocks of a file,
`⌈size / block_size⌉`. -/
def FileStorage.file_num_blocks (fs : FileStorage) (f : Nat) : Int :=
  (fs.file_size f + default_block_size - 1) / default_block_size

/-- Modelled from the spec: the `torrent_info` interface read by the
codec: preformatted info section bytes, comment, creation date, creator
and the file storage. -/
structure TorrentInfoRec where
  info_section : List Nat
  comment : String
  creation_date : Int
  creator : String
  files : FileStorage
  deriving DecidableEq, Repr

/-- Modelled from the spec: a peer endpoint: address bytes (4 for v4, 16
for v6) followed by a 2-byte big-endian port on serialization. -/
structure Endpoint where
  v6 : Bool
  addr : List Nat
  port : Nat
  deriving DecidableEq, Repr

def is_v6 (p : Endpoint) : Bool := p.v6

/-- Modelled from the spec: `write_endpoint`: address bytes then the port
in big-endian. -/
def write_endpoint (p : Endpoint) : List Nat :=
  p.addr ++ [p.port / 256 % 256, p.port % 256]

/-- The per-torrent flag bitset (`torrent_flags`), externalized as
booleans in the resume file. -/
structure TorrentFlags where
  seed_mode : Bool
  upload_mode : Bool
  share_mode : Bool
  apply_ip_filter : Bool
  paused : Bool
  auto_managed : Bool
  super_seeding : Bool
  sequential_download : Bool
  stop_when_ready : Bool
  disable_dht : Bool
  disable_lsd : Bool
  disable_pex : Bool
  deriving DecidableEq, Repr

/-- The fields of `add_torrent_params` read by `write_resume_data`. -/
structure AddTorrentParams where
  ti : Option TorrentInfoRec
  merkle_trees : List (List (List Nat))
  verified_leaf_hashes : List (List Bool)
  merkle_tree_mask : List (List Bool)
  url_seeds : List String
  http_seeds : List String
  name : String
  trackers : List String
  tracker_tiers : List Int
  storage_mode_allocate : Bool
  total_uploaded : Int
  total_downloaded : Int
  active_time : Int
  finished_time : Int
  seeding_time : Int
  last_seen_complete : Int
  last_download : Int
  last_upload : Int
  num_complete : Int
  num_incomplete : Int
  num_downloaded : Int
  flags : TorrentFlags
  added_time : Int
  completed_time : Int
  save_path : String
  info_hash_v1 : List Nat
  info_hash_v2 : List Nat
  unfinished_pieces : List (Int × List Bool)
  have_pieces : List Bool
  verified_pieces : List Bool
  renamed_files : List (Nat × String)
  peers : List Endpoint
  banned_peers : List Endpoint
  upload_limit : Int
  download_limit : Int
  max_connections : Int
  max_uploads : Int
  file_priorities : List Nat
  piece_priorities : List Nat

/-! ## Merkle trees (modelled)

`aux::merkle_tree` lives outside the excerpted sources; it is modelled
from the spec: a complete binary tree stored level order, loadable from
a dense node array (`load_tree`) or a sparse array plus mask
(`load_sparse_tree`); `get_piece_layer` returns the per-piece level. -/

/-- An all-zero 32-byte hash, the fill value of sparse trees. -/
def zero_hash : List Nat := List.replicate 32 0

/-- Modelled from the spec: a per-file merkle tree as constructed by the
codec: block count, blocks per piece, the file root (`root_ptr`) and the
loaded level-order node array. -/
structure MerkleTree where
  num_blocks : Int
  blocks_per_piece : Int
  root_hash : List Nat
  nodes : List (List Nat)
  deriving DecidableEq, Repr

/-- Modelled from the spec: construct an empty tree (`aux::merkle_tree`
constructor). -/
def MerkleTree.make (num_blocks blocks_per_piece : Int) (root : List Nat) :
    MerkleTree :=
  ⟨num_blocks, blocks_per_piece, root, []⟩

/-- Modelled from the spec: load a dense level-order node array. -/
def MerkleTree.load_tree (t : MerkleTree) (tree : List (List Nat)) :
    MerkleTree :=
  { t with nodes := tree }

/-- Modelled from the spec: expand a sparse node array guided by a mask:
a set mask bit consumes the next stored hash, a clear bit yields the
zero hash. -/
def expandSparse : List (List Nat) → List Bool → List (List Nat)
  | _, [] => []
  | tree, b :: ms =>
      if b then tree.headD zero_hash :: expandSparse tree.tail ms
      else zero_hash :: expandSparse tree ms

/-- Modelled from the spec: load a sparse node array plus mask. -/
def MerkleTree.load_sparse_tree (t : MerkleTree) (tree : List (List Nat))
    (mask : List Bool) : MerkleTree :=
  { t with nodes := expandSparse tree mask }

/-- The root of the tree (the file root handed to the constructor). -/
def MerkleTree.root (t : MerkleTree) : List Nat := t.root_hash

/-- Smallest power of two that is at least `n`. -/
def nextPow2 (n : Nat) : Nat := 2 ^ Nat.clog 2 n

/-- Modelled from the spec: the piece layer of a loaded tree: in the
level-order array the layer with `p` nodes starts at index `p - 1`; one
hash per piece of the file. -/
def MerkleTree.get_piece_layer (t : MerkleTree) : List (List Nat) :=
  let blocks := t.num_blocks.toNat
  let bpp := max t.blocks_per_piece.toNat 1
  let leafCount := nextPow2 blocks
  let layerSize := leafCount / bpp
  let numPieces := (blocks + bpp - 1) / bpp
  (t.nodes.drop (layerSize - 1)).take numPieces

/-! ## The codec: `write_resume_data` / `write_torrent_file`

Embedding of `src/src/write_resume_data.cpp`, lines 55–378.  The single
C++ function with an early `return` for the torrent-only mode is split
at that return into `torrentFields` (lines 57–187) and `resumeFields`
(lines 193–366). -/

/-- Raw bytes as a dictionary key (piece-layer roots are raw 32-byte
strings). -/
def strOfBytes (bs : List Nat) : String := String.mk (bs.map Char.ofNat)

/-- `piece_layers[root].string() += h`: append to the entry of `root`,
default-constructing it when absent (`std::map::operator[]`). -/
def addLayerBytes (d : List (List Nat × List Nat)) (k : List Nat)
    (bytes : List Nat) : List (List Nat × List Nat) :=
  match d with
  | [] => [(k, bytes)]
  | (k', v) :: rest =>
      if k' = k then (k', v ++ bytes) :: rest
      else (k', v) :: addLayerBytes rest k bytes

/-- The contribution of file `f` to the `piece layers` dictionary
(lines 112–137): present iff metadata is present, the file is not a pad
file and is larger than one piece.  The tree is loaded with
`load_sparse_tree` when a non-empty mask exists for `f`, with
`load_tree` otherwise; the value is the concatenated piece-layer
hashes, the key the file root. -/
def pieceLayerEntryFor (atp : AddTorrentParams) (f : Nat) :
    Option (List Nat × List Nat) :=
  match atp.ti with
  | none => none
  | some ti =>
      let fs := ti.files
      if fs.pad_file_at f = false ∧ fs.file_size f > fs.piece_length then
        let tree := atp.merkle_trees.getD f []
        let t0 := MerkleTree.make (fs.file_num_blocks f)
          (fs.piece_length / default_block_size) (fs.root_ptr f)
        let t :=
          if atp.merkle_tree_mask.getD f [] ≠ [] then
            t0.load_sparse_tree tree (atp.merkle_tree_mask.getD f [])
          else
            t0.load_tree tree
        some (t.root, t.get_piece_layer.flatten)
      else none

/-- The `piece layers` dictionary accumulated over all files of the
merkle-tree loop. -/
def pieceLayersList (atp : AddTorrentParams) : List (List Nat × List Nat) :=
  (List.range atp.merkle_trees.length).foldl
    (fun acc f =>
      match pieceLayerEntryFor atp f with
      | some (k, v) => addLayerBytes acc k v
      | none => acc) []

/-- A '0'/'1' ASCII string from a bit vector (`verified` and `mask` keys
of a tree entry). -/
def asciiBits (bits : List Bool) : List Nat :=
  bits.map (fun b => if b then Char.toNat '1' else Char.toNat '0')

/-- The per-file dictionary pushed onto `ret_trees` (lines 80–110):
`hashes` always, `verified` and `mask` when the respective per-file
vectors are non-empty. -/
def treeEntryFor (atp : AddTorrentParams) (f : Nat) : Entry :=
  let tree := atp.merkle_trees.getD f []
  let d : Dict := setKey [] "hashes" (.str tree.flatten)
  let d :=
    if atp.verified_leaf_hashes.getD f [] ≠ [] then
      setKey d "verified" (.str (asciiBits (atp.verified_leaf_hashes.getD f [])))
    else d
  let d :=
    if atp.merkle_tree_mask.getD f [] ≠ [] then
      setKey d "mask" (.str (asciiBits (atp.merkle_tree_mask.getD f [])))
    else d
  .dict d

/-- `aux::clamp(std::size_t(tier), 0, 1024)`: the `int` tier is cast to
`size_t` first, so a negative tier wraps far above 1024 and clamps to
1024. -/
def clampTier (i : Int) : Nat := if i < 0 then 1024 else min i.toNat 1024

/-- One slot of `tr_list`: `none` is a default-constructed (undefined)
entry as left behind by `resize`, `some l` a tier that holds a list. -/
abbrev TierSlot := Option (List String)

/-- `tr_list.resize(tier + 1)` when `tr_list.size() <= tier`: the new
slots are default-constructed entries (undefined), not lists. -/
def padTiers (l : List TierSlot) (n : Nat) : List TierSlot :=
  if l.length ≤ n then l ++ List.replicate (n + 1 - l.length) none else l

/-- `tr_list[tier].list().emplace_back(tr)`: `.list()` converts an
undefined slot into an empty list before the tracker is appended. -/
def appendAtTier : List TierSlot → Nat → String → List TierSlot
  | [], _, tr => [some [tr]]
  | t :: ts, 0, tr => some (t.getD [] ++ [tr]) :: ts
  | t :: ts, n + 1, tr => t :: appendAtTier ts n tr

/-- The tracker loop of lines 172–183: the tier index carries over from
the previous tracker once `tracker_tiers` is exhausted. -/
def addTrackersGo : List String → List Int → Nat → List TierSlot →
    List TierSlot
  | [], _, _, acc => acc
  | tr :: rest, tiers, tier, acc =>
      let p : Nat × List Int :=
        match tiers with
        | [] => (tier, [])
        | i :: is => (clampTier i, is)
      addTrackersGo rest p.2 p.1 (appendAtTier (padTiers acc p.1) p.1 tr)

/-- The tier slots of `announce-list` (initialized with one empty list
tier, line 171); tiers skipped over by `resize` stay undefined. -/
def trackerTierLists (atp : AddTorrentParams) : List TierSlot :=
  addTrackersGo atp.trackers atp.tracker_tiers 0 [some []]

def tiersToEntry (ts : List TierSlot) : Entry :=
  .list (ts.map (fun tier =>
    match tier with
    | none => .undef
    | some l => .list (l.map (fun s => .str (strB s)))))

/-- Whether an entry is a list all of whose elements are lists. -/
def Entry.isListOfLists : Entry → Bool
  | .list l => l.all (fun x => match x with | .list _ => true | _ => false)
  | _ => false

/-- Lines 59–69: the `info` section and its sibling metadata. -/
def tfInfo (atp : AddTorrentParams) (d : Dict) : Dict :=
  match atp.ti with
  | none => d
  | some ti =>
      let d := setKey d "info" (.preformatted ti.info_section)
      let d := if ti.comment ≠ "" then
          setKey d "comment" (.str (strB ti.comment)) else d
      let d := if ti.creation_date ≠ 0 then
          setKey d "creation date" (.int ti.creation_date) else d
      let d := if ti.creator ≠ "" then
          setKey d "created by" (.str (strB ti.creator)) else d
      d

/-- Lines 140–143: the `piece layers` dictionary, when non-empty. -/
def tfPieceLayers (atp : AddTorrentParams) (d : Dict) : Dict :=
  if atp.merkle_trees ≠ [] ∧ pieceLayersList atp ≠ [] then
    setKey d "piece layers"
      (.dict ((pieceLayersList atp).map
        (fun kv => (strOfBytes kv.1, Entry.str kv.2))))
  else d

/-- Lines 146–157: `url-list` and `httpseeds` when non-empty. -/
def tfWebSeeds (atp : AddTorrentParams) (d : Dict) : Dict :=
  let d := if atp.url_seeds ≠ [] then
      setKey d "url-list" (.list (atp.url_seeds.map (fun s => .str (strB s))))
    else d
  if atp.http_seeds ≠ [] then
    setKey d "httpseeds" (.list (atp.http_seeds.map (fun s => .str (strB s))))
  else d

/-- Line 159: `name` when non-empty. -/
def tfName (atp : AddTorrentParams) (d : Dict) : Dict :=
  if atp.name ≠ "" then setKey d "name" (.str (strB atp.name)) else d

/-- Lines 162–185: `announce` for a single tracker, `announce-list`
(list of tier lists) for several. -/
def tfTrackers (atp : AddTorrentParams) (d : Dict) : Dict :=
  if atp.trackers ≠ [] then
    if atp.trackers.length = 1 then
      setKey d "announce" (.str (strB (atp.trackers.headD "")))
    else
      setKey d "announce-list" (tiersToEntry (trackerTierLists atp))
  else d

/-- `.torrent` fields: lines 57–187 of `write_resume_data`. -/
def torrentFields (atp : AddTorrentParams) : Dict :=
  tfTrackers atp (tfName atp (tfWebSeeds atp (tfPieceLayers atp (tfInfo atp []))))

/-- The bytes of the `pieces` value: first pass writes the `have` bits
(lines 290–295). -/
def writeHave : List Nat → List Bool → List Nat
  | bs, [] => bs
  | [], _ => []
  | _ :: bs, h :: hs => (if h then 1 else 0) :: writeHave bs hs

/-- Second pass ors in the `verified` bits (lines 297–302). -/
def orVerified : List Nat → List Bool → List Nat
  | bs, [] => bs
  | [], _ => []
  | b :: bs, v :: vs => (b ||| if v then 2 else 0) :: orVerified bs vs

/-- The `pieces` byte string: a buffer of length
`max (len have) (len verified)` zero-filled, then the two passes. -/
def piecesBytes (hv vf : List Bool) : List Nat :=
  orVerified (writeHave (List.replicate (max hv.length vf.length) 0) hv) vf

/-- Modelled from the spec: the byte buffer underlying a `bitfield`,
most-significant bit first, `⌈n / 8⌉` bytes. -/
def bitfieldBytes (bits : List Bool) : List Nat :=
  (List.range ((bits.length + 7) / 8)).map (fun byteIdx =>
    (List.range 8).foldl
      (fun acc j => acc * 2 + (if bits.getD (byteIdx * 8 + j) false then 1 else 0)) 0)

/-- `fl.resize(idx + 1)` then `fl[idx] = name` for `mapped_files`. -/
def setAtPad (l : List Entry) (i : Nat) (v : Entry) : List Entry :=
  let l := if l.length ≤ i then l ++ List.replicate (i + 1 - l.length) Entry.undef else l
  l.set i v

def mappedFiles (rf : List (Nat × String)) : List Entry :=
  rf.foldl (fun fl p => setAtPad fl p.1 (.str (strB p.2))) []

def endpointBytes (l : List Endpoint) : List Nat :=
  (l.map write_endpoint).flatten

/-- The libtorrent version string baked into the build (not part of the
excerpt; the claims do not depend on its value). -/
def lt_version_str : String := "2.0.5.0"

/-- Lines 193–194: the `trees` list when merkle trees are present. -/
def rfTrees (atp : AddTorrentParams) (d : Dict) : Dict :=
  if atp.merkle_trees ≠ [] then
    setKey d "trees"
      (.list ((List.range atp.merkle_trees.length).map (treeEntryFor atp)))
  else d

/-- Lines 196–205: the redundant `trackers` view: an empty list with no
trackers, a single tier holding the `announce` entry with one, a copy
of `announce-list` with several. -/
def rfTrackersDup (atp : AddTorrentParams) (d : Dict) : Dict :=
  if atp.trackers = [] then ensureList d "trackers"
  else if atp.trackers.length = 1 then
    setKey d "trackers" (.list [.list [(lookupKey d "announce").getD .undef]])
  else
    setKey d "trackers" ((lookupKey d "announce-list").getD .undef)

/-- Lines 207–213: removed web seeds are recorded as empty lists. -/
def rfWebEmpty (atp : AddTorrentParams) (d : Dict) : Dict :=
  let d := if atp.url_seeds = [] then ensureList d "url-list" else d
  if atp.http_seeds = [] then ensureList d "httpseeds" else d

def boolInt (b : Bool) : Entry := .int (if b then 1 else 0)

/-- Lines 216–265: the unconditional scalar fields: identity, counters,
flag booleans, times, save path and info-hashes. -/
def rfScalars (atp : AddTorrentParams) (d : Dict) : Dict :=
  let d := setKey d "file-format" (.str (strB "libtorrent resume file"))
  let d := setKey d "file-version" (.int 1)
  let d := setKey d "libtorrent-version" (.str (strB lt_version_str))
  let d := setKey d "allocation"
    (.str (strB (if atp.storage_mode_allocate then "allocate" else "sparse")))
  let d := setKey d "total_uploaded" (.int atp.total_uploaded)
  let d := setKey d "total_downloaded" (.int atp.total_downloaded)
  let d := setKey d "active_time" (.int atp.active_time)
  let d := setKey d "finished_time" (.int atp.finished_time)
  let d := setKey d "seeding_time" (.int atp.seeding_time)
  let d := setKey d "last_seen_complete" (.int atp.last_seen_complete)
  let d := setKey d "last_download" (.int atp.last_download)
  let d := setKey d "last_upload" (.int atp.last_upload)
  let d := setKey d "num_complete" (.int atp.num_complete)
  let d := setKey d "num_incomplete" (.int atp.num_incomplete)
  let d := setKey d "num_downloaded" (.int atp.num_downloaded)
  let d := setKey d "seed_mode" (boolInt atp.flags.seed_mode)
  let d := setKey d "upload_mode" (boolInt atp.flags.upload_mode)
  let d := setKey d "share_mode" (boolInt atp.flags.share_mode)
  let d := setKey d "apply_ip_filter" (boolInt atp.flags.apply_ip_filter)
  let d := setKey d "paused" (boolInt atp.flags.paused)
  let d := setKey d "auto_managed" (boolInt atp.flags.auto_managed)
  let d := setKey d "super_seeding" (boolInt atp.flags.super_seeding)
  let d := setKey d "sequential_download" (boolInt atp.flags.sequential_download)
  let d := setKey d "stop_when_ready" (boolInt atp.flags.stop_when_ready)
  let d := setKey d "disable_dht" (boolInt atp.flags.disable_dht)
  let d := setKey d "disable_lsd" (boolInt atp.flags.disable_lsd)
  let d := setKey d "disable_pex" (boolInt atp.flags.disable_pex)
  let d := setKey d "added_time" (.int atp.added_time)
  let d := setKey d "completed_time" (.int atp.completed_time)
  let d := setKey d "save_path" (.str (strB atp.save_path))
  let d := setKey d "info-hash" (.str atp.info_hash_v1)
  setKey d "info-hash2" (.str atp.info_hash_v2)

/-- Lines 267–283: the `unfinished` piece list. -/
def rfUnfinished (atp : AddTorrentParams) (d : Dict) : Dict :=
  if atp.unfinished_pieces ≠ [] then
    setKey d "unfinished"
      (.list (atp.unfinished_pieces.map (fun p =>
        .dict (setKey (setKey [] "piece" (.int p.1)) "bitmask"
          (.str (bitfieldBytes p.2))))))
  else d

/-- Lines 285–302: the `pieces` have/verified bitmask. -/
def rfPieces (atp : AddTorrentParams) (d : Dict) : Dict :=
  setKey d "pieces" (.str (piecesBytes atp.have_pieces atp.verified_pieces))

/-- Lines 304–314: renamed files. -/
def rfMapped (atp : AddTorrentParams) (d : Dict) : Dict :=
  if atp.renamed_files ≠ [] then
    setKey d "mapped_files" (.list (mappedFiles atp.renamed_files))
  else d

/-- Lines 316–328: local peers, segregated by address family. -/
def rfPeers (atp : AddTorrentParams) (d : Dict) : Dict :=
  if atp.peers ≠ [] then
    setKey (setKey d "peers"
        (.str (endpointBytes (atp.peers.filter (fun p => !is_v6 p)))))
      "peers6" (.str (endpointBytes (atp.peers.filter (fun p => is_v6 p))))
  else d

/-- Lines 330–341: banned peers. -/
def rfBanned (atp : AddTorrentParams) (d : Dict) : Dict :=
  if atp.banned_peers ≠ [] then
    setKey (setKey d "banned_peers"
        (.str (endpointBytes (atp.banned_peers.filter (fun p => !is_v6 p)))))
      "banned_peers6" (.str (endpointBytes (atp.banned_peers.filter (fun p => is_v6 p))))
  else d

/-- Lines 343–346: rate, connection and upload-slot limits. -/
def rfLimits (atp : AddTorrentParams) (d : Dict) : Dict :=
  let d := setKey d "upload_rate_limit" (.int atp.upload_limit)
  let d := setKey d "download_rate_limit" (.int atp.download_limit)
  let d := setKey d "max_connections" (.int atp.max_connections)
  setKey d "max_uploads" (.int atp.max_uploads)

/-- Lines 348–355: per-file priorities (cast to `uint8`). -/
def rfFilePrio (atp : AddTorrentParams) (d : Dict) : Dict :=
  if atp.file_priorities ≠ [] then
    setKey d "file_priority"
      (.list (atp.file_priorities.map (fun p => .int (p % 256))))
  else d

/-- Lines 357–364: per-piece priorities (one byte per piece). -/
def rfPiecePrio (atp : AddTorrentParams) (d : Dict) : Dict :=
  if atp.piece_priorities ≠ [] then
    setKey d "piece_priority" (.str (atp.piece_priorities.map (fun p => p % 256)))
  else d

/-- Resume-only fields: lines 193–366 of `write_resume_data`, applied on
top of the `.torrent` dictionary, in source order. -/
def resumeFields (atp : AddTorrentParams) (d0 : Dict) : Dict :=
  rfPiecePrio atp (rfFilePrio atp (rfLimits atp (rfBanned atp (rfPeers atp
    (rfMapped atp (rfPieces atp (rfUnfinished atp (rfScalars atp
      (rfWebEmpty atp (rfTrackersDup atp (rfTrees atp d0)))))))))))

/-- `write_resume_data(atp, flags)` with its early return for the
torrent-only mode (line 189). -/
def writeResumeDataImpl (atp : AddTorrentParams) (writeTorrentOnly : Bool) : Dict :=
  let ret := torrentFields atp
  if writeTorrentOnly then ret else resumeFields atp ret

/-- `write_resume_data(atp)`. -/
def write_resume_data (atp : AddTorrentParams) : Dict :=
  writeResumeDataImpl atp false

/-- `write_torrent_file(atp)`. -/
def write_torrent_file (atp : AddTorrentParams) : Dict :=
  writeResumeDataImpl atp true

/-! ## Auto-manage scheduler (modelled)

The scheduler implementation is not part of the excerpted sources (only
its simulation tests are), so the whole component is modelled from the
specification, §4.1: a periodic tick collects the auto-managed
torrents, partitions them into queue classes (checking, downloading,
seeding) ordered by queue position (= add order), computes a desired
active set against the slot limits (slow torrents exempt from the
download/seed limits when `dont_count_slow_torrents` is set), and diffs
it against the current set, issuing resume/pause commands.  Admissions
are paced: a paused→active transition is deferred unless 60 seconds of
wall clock have passed since the previous admission.  Torrents with
`auto_managed=false` are never collected.  A torrent whose on-disk
check completes while active announces to its tracker only if it stays
active in a downloading/seeding slot; checking torrents never
announce. -/

/-- Modelled from the spec: the lifecycle states the scheduler
distinguishes. -/
inductive Lifecycle where
  | checking
  | downloading
  | seeding
  deriving DecidableEq, Repr

/-- Modelled from the spec: the management-relevant attributes of one
torrent: flags, whether the on-disk check has completed, whether the
data is complete (a seed), tracker presence, and the transfer rates of
the last window. -/
structure Torrent where
  auto_managed : Bool
  paused : Bool
  checked : Bool
  is_seed : Bool
  has_tracker : Bool
  dl_rate : Nat
  ul_rate : Nat
  deriving DecidableEq, Repr, Inhabited

/-- The scheduler's view of the lifecycle state (§4.1.7). -/
def Torrent.lifecycle (t : Torrent) : Lifecycle :=
  if t.checked = false then .checking
  else if t.is_seed then .seeding else .downloading

/-- Queue class (§3.2): 0 = checking slot, 1 = downloading slot,
2 = seeding slot; a torrent that still has to check occupies a checking
slot regardless of intent. -/
def Torrent.queueClass (t : Torrent) : Nat :=
  if t.checked = false then 0 else if t.is_seed then 2 else 1

/-- Modelled from the spec: the recognized configuration options
(§6.4).  `-1`-style "unlimited" sentinels are represented by large
values; the rate thresholds below which a torrent counts as slow
default to 0. -/
structure Settings where
  active_downloads : Nat
  active_seeds : Nat
  active_checking : Nat
  dont_count_slow_torrents : Bool
  inactive_down_rate : Nat
  inactive_up_rate : Nat
  deriving DecidableEq, Repr

/-- A torrent is slow when both rates of the last window are at or
below the thresholds (§4.1.4); checking torrents are classified apart
and never consult this. -/
def Torrent.slow (sett : Settings) (t : Torrent) : Bool :=
  t.dl_rate ≤ sett.inactive_down_rate && t.ul_rate ≤ sett.inactive_up_rate

/-- The timestamped lifecycle events of the alert sink (§6.2). -/
inductive Alert where
  | torrent_resumed (idx time : Nat)
  | torrent_paused (idx time : Nat)
  | state_changed (idx time : Nat) (prev cur : Lifecycle)
  | tracker_announce (idx time : Nat)
  deriving DecidableEq, Repr

/-- The session: torrent list (index = queue position = add order),
read-only settings, the append-only alert sink and the wall-clock of
the last paced admission. -/
structure SessionState where
  torrents : List Torrent
  settings : Settings
  alerts : List Alert
  last_admission : Option Nat
  deriving DecidableEq, Repr

/-- Phase 1 of a tick: every actively-checking torrent completes its
check this tick, emitting the `state_changed` leaving the checking
state.  Returns updated torrents, alerts, completed indices. -/
def completeChecksGo (now : Nat) : Nat → List Torrent →
    List Torrent × List Alert × List Nat
  | _, [] => ([], [], [])
  | i, t :: ts =>
      let r := completeChecksGo now (i + 1) ts
      if t.paused = false ∧ t.checked = false then
        ({ t with checked := true } :: r.1,
         .state_changed i now .checking
           (if t.is_seed then .seeding else .downloading) :: r.2.1,
         i :: r.2.2)
      else (t :: r.1, r.2.1, r.2.2)

def completeChecks (now : Nat) (ts : List Torrent) :
    List Torrent × List Alert × List Nat :=
  completeChecksGo now 0 ts

/-- Step 1–3 of a tick (§4.1.1): the auto-managed torrents, partitioned
by queue class, each class sorted by queue position ascending. -/
def classOrder (ts : List Torrent) : List Nat :=
  let idxs := (List.range ts.length).filter
    (fun i => (ts.getD i default).auto_managed)
  (idxs.filter (fun i => (ts.getD i default).queueClass = 0)) ++
    (idxs.filter (fun i => (ts.getD i default).queueClass = 1)) ++
    (idxs.filter (fun i => (ts.getD i default).queueClass = 2))

/-- Slots used so far in each class while walking the queues. -/
structure SlotCount where
  checking : Nat
  downloading : Nat
  seeding : Nat
  deriving DecidableEq, Repr

/-- Slot assignment (§4.1.3, §4.1.4) for one torrent: admit while the
class limit is not exhausted; when `dont_count_slow_torrents` is set, a
slow torrent is admitted without consuming a download/seed slot. -/
def desiredStep (sett : Settings) (t : Torrent) (c : SlotCount) :
    Bool × SlotCount :=
  if t.queueClass = 0 then
    if c.checking < sett.active_checking then
      (true, { c with checking := c.checking + 1 }) else (false, c)
  else if t.queueClass = 1 then
    if sett.dont_count_slow_torrents && t.slow sett then (true, c)
    else if c.downloading < sett.active_downloads then
      (true, { c with downloading := c.downloading + 1 }) else (false, c)
  else
    if sett.dont_count_slow_torrents && t.slow sett then (true, c)
    else if c.seeding < sett.active_seeds then
      (true, { c with seeding := c.seeding + 1 }) else (false, c)

/-- The desired active set: `(index, desired)` pairs in class order. -/
def computeDesiredGo (sett : Settings) (ts : List Torrent) :
    List Nat → SlotCount → List (Nat × Bool)
  | [], _ => []
  | i :: is, c =>
      let r := desiredStep sett (ts.getD i default) c
      (i, r.1) :: computeDesiredGo sett ts is r.2

def computeDesired (sett : Settings) (ts : List Torrent) : List (Nat × Bool) :=
  computeDesiredGo sett ts (classOrder ts) ⟨0, 0, 0⟩

/-- Pacing rule (§4.1.3): an admission is allowed only when at least 60
seconds of wall clock have passed since the previous admission. -/
def pacingOK (now : Nat) : Option Nat → Bool
  | none => true
  | some last => last + 60 ≤ now

/-- Accumulator of the diff pass: torrents, wall-clock of the last
admission, commands issued so far, indices resumed this tick. -/
structure DiffAcc where
  torrents : List Torrent
  last_admission : Option Nat
  alerts : List Alert
  resumed : List Nat
  deriving DecidableEq, Repr

/-- Step 5 of a tick (§4.1.1): resume a paused torrent that is in the
desired set (subject to pacing, which defers it to a later tick), pause
an active torrent that is not. -/
def diffStep (now : Nat) (acc : DiffAcc) (p : Nat × Bool) : DiffAcc :=
  if p.2 = true ∧ (acc.torrents.getD p.1 default).paused = true then
    if pacingOK now acc.last_admission then
      { torrents := acc.torrents.set p.1
          { acc.torrents.getD p.1 default with paused := false },
        last_admission := some now,
        alerts := acc.alerts ++ [.torrent_resumed p.1 now],
        resumed := acc.resumed ++ [p.1] }
    else acc
  else if p.2 = false ∧ (acc.torrents.getD p.1 default).paused = false then
    { acc with
      torrents := acc.torrents.set p.1
        { acc.torrents.getD p.1 default with paused := true },
      alerts := acc.alerts ++ [.torrent_paused p.1 now] }
  else acc

/-- A torrent that reached an active downloading/seeding slot this tick
(check completed while it stays active, or it was resumed when already
checked) announces to its tracker (§4.1.5): checking torrents never
announce, and a torrent parked right after its check does not either. -/
def announcesFor (now : Nat) (ts : List Torrent) (idxs : List Nat) :
    List Alert :=
  idxs.filterMap (fun i =>
    if (ts.getD i default).paused = false ∧ (ts.getD i default).checked = true ∧
        (ts.getD i default).has_tracker = true then
      some (.tracker_announce i now)
    else none)

/-- One scheduler tick at wall-clock `now`. -/
def tick (now : Nat) (st : SessionState) : SessionState :=
  let c := completeChecks now st.torrents
  let pairs := computeDesired st.settings c.1
  let da := pairs.foldl (diffStep now) ⟨c.1, st.last_admission, [], []⟩
  let ann := announcesFor now da.torrents (c.2.2 ++ da.resumed)
  { torrents := da.torrents,
    settings := st.settings,
    alerts := st.alerts ++ (c.2.1 ++ (da.alerts ++ ann)),
    last_admission := da.last_admission }

/-- A run: ticks at the given wall-clock instants, in order. -/
def runTicks (st : SessionState) : List Nat → SessionState
  | [] => st
  | t :: rest => runTicks (tick t st) rest

/-- The test harness runs for `(num_torrents + 1) * 60` seconds with a
tick every 60 seconds. -/
def tickTimes (n : Nat) : List Nat := (List.range n).map (· * 60)

/-- Number of `torrent_resumed` alerts. -/
def countResumed (al : List Alert) : Nat :=
  al.countP (fun a => match a with | .torrent_resumed _ _ => true | _ => false)

/-- Number of `tracker_announce` alerts. -/
def countAnnounce (al : List Alert) : Nat :=
  al.countP (fun a => match a with | .tracker_announce _ _ => true | _ => false)

/-- A resume or pause command on torrent `i`. -/
def Alert.isCmdOn (a : Alert) (i : Nat) : Bool :=
  match a with
  | .torrent_resumed j _ => j = i
  | .torrent_paused j _ => j = i
  | _ => false

/-- Any resume or pause command. -/
def Alert.isCmd (a : Alert) : Bool :=
  match a with
  | .torrent_resumed _ _ => true
  | .torrent_paused _ _ => true
  | _ => false

/-- Timestamps of the `torrent_resumed` alerts, in emission order. -/
def resumeTimes (al : List Alert) : List Nat :=
  al.filterMap (fun a => match a with | .torrent_resumed _ t => some t | _ => none)

/-- Torrents currently started. -/
def numUnpaused (ts : List Torrent) : Nat := ts.countP (fun t => !t.paused)

/-! ### The test scenarios of `test_auto_manage.cpp` -/

/-- An idle (rate 0) downloader as added by the tests: nothing on disk
to check, no tracker. -/
def idleDownloader (auto paused : Bool) : Torrent :=
  ⟨auto, paused, true, false, false, 0, 0⟩

/-- A complete seed still to be checked, with one tracker when
`tr` is set. -/
def uncheckedSeed (auto paused tr : Bool) : Torrent :=
  ⟨auto, paused, false, true, tr, 0, 0⟩

/-- The session settings of the `dont_count_slow_torrents` /
`count_slow_torrents` tests: `active_downloads=1`, `active_seeds=1`. -/
def slowTestSettings (dontCount : Bool) : Settings :=
  ⟨1, 1, 1, dontCount, 0, 0⟩

/-- Fresh session of the slow-torrent tests: ten idle auto-managed
downloaders added paused (lines 121–229). -/
def scenarioSlow (dontCount : Bool) : SessionState :=
  ⟨List.replicate 10 (idleDownloader true true), slowTestSettings dontCount,
   [], none⟩

/-- Fresh session of `force_stopped_download` (lines 231–277): ten
torrents added paused, not auto-managed, generous limits. -/
def scenarioForceStopped : SessionState :=
  ⟨List.replicate 10 (idleDownloader false true), ⟨10, 10, 1, true, 0, 0⟩,
   [], none⟩

/-- Fresh session of `force_started` (lines 279–325): ten torrents
added started, not auto-managed, `active_downloads=1`. -/
def scenarioForceStarted : SessionState :=
  ⟨List.replicate 10 (idleDownloader false false), ⟨1, 1, 1, false, 0, 0⟩,
   [], none⟩

/-- Fresh session of `checking_announce` (lines 508–567): ten complete
auto-managed seeds added paused, each with one tracker;
`active_checking=1`, `active_seeds=1`. -/
def scenarioChecking : SessionState :=
  ⟨List.replicate 10 (uncheckedSeed true true true), ⟨3, 1, 1, false, 0, 0⟩,
   [], none⟩

/-- An `add_torrent_params` with every field cleared (used to exercise
theorems at a concrete input). -/
def atp0 : AddTorrentParams :=
  ⟨none, [], [], [], [], [], "", [], [], false, 0, 0, 0, 0, 0, 0, 0, 0, 0, 0, 0,
   ⟨false, false, false, false, false, false, false, false, false, false, false, false⟩,
   0, 0, "", [], [], [], [], [], [], [], [], 0, 0, 0, 0, [], []⟩

/-- The effect of phase 1 (check completion) on a single torrent. -/
def completeFn (t : Torrent) : Torrent :=
  if t.paused = false ∧ t.checked = false then { t with checked := true } else t

/-- The pacing invariant a fresh session maintains: the resume
timestamps are 60-second separated and bounded by the last admission. -/
def schedInv (st : SessionState) : Prop :=
  List.Pairwise (fun a b => a + 60 ≤ b) (resumeTimes st.alerts) ∧
  ∀ x ∈ resumeTimes st.alerts, ∃ L, st.last_admission = some L ∧ x ≤ L

/-- A one-torrent session whose torrent is resumed-and-announced on the
first tick (already checked, has a tracker). -/
def stW : SessionState :=
  ⟨[⟨true, true, true, false, true, 0, 0⟩], ⟨1, 1, 1, false, 0, 0⟩, [], none⟩

/-- Concrete inputs used to exercise the theorems. -/
def atpP : AddTorrentParams :=
  { atp0 with have_pieces := [true], verified_pieces := [false, true] }

def atpTr1 : AddTorrentParams := { atp0 with trackers := ["http://tr/a"] }

def atpTr3 : AddTorrentParams :=
  { atp0 with trackers := ["http://tr/a", "http://tr/b", "http://tr/c"],
              tracker_tiers := [1, 0] }

/-- Two trackers both on tier 2: the resize skips tier 1, leaving an
undefined entry there. -/
def atpGap : AddTorrentParams :=
  { atp0 with trackers := ["http://tr/a", "http://tr/b"],
              tracker_tiers := [2] }

def atpName : AddTorrentParams := { atp0 with name := "n" }

/-- A one-file torrent with a merkle tree: piece length 32 kiB, file of
64 kiB (4 blocks, 2 pieces). -/
def tiMerkle : TorrentInfoRec :=
  ⟨[1, 2], "", 0, "", ⟨32768, [⟨false, 65536, List.replicate 32 7⟩]⟩⟩

def atpMerkle : AddTorrentParams :=
  { atp0 with
    ti := some tiMerkle,
    merkle_trees := [List.replicate 7 (List.replicate 32 1)] }

/-- The effective tier of each tracker in order: the per-tracker tier
(clamped) while `tracker_tiers` lasts, the previous tier afterwards. -/
def effTierList : Nat → List Int → Nat → List Nat
  | _, _, 0 => []
  | cur, [], n + 1 => cur :: effTierList cur [] n
  | _, i :: is, n + 1 => clampTier i :: effTierList (clampTier i) is n

/-- One insertion of the tracker loop, with the effective tier already
computed. -/
def insertTier (acc : List TierSlot) (p : String × Nat) : List TierSlot :=
  appendAtTier (padTiers acc p.2) p.2 p.1

/-- Byte-keyed association lookup (the `piece layers` dictionary is
keyed by raw 32-byte roots). -/
def lookupBytes (d : List (List Nat × List Nat)) (k : List Nat) :
    Option (List Nat) :=
  match d with
  | [] => none
  | (k', v) :: rest => if k' = k then some v else lookupBytes rest k

/-- The guard of the piece-layers block (line 115): not a pad file and
strictly larger than one piece. -/
def pieceLayerGuard (ti : TorrentInfoRec) (f : Nat) : Prop :=
  ti.files.pad_file_at f = false ∧ ti.files.file_size f > ti.files.piece_length

instance (ti : TorrentInfoRec) (f : Nat) : Decidable (pieceLayerGuard ti f) := by
  unfold pieceLayerGuard; infer_instance

/-- The `.torrent` top-level key set (§4.2.1). -/
def torrentKeys : List String :=
  ["info", "comment", "creation date", "created by", "piece layers",
   "url-list", "httpseeds", "name", "announce", "announce-list"]

/-- The keys of the unconditional scalar block (lines 216–265). -/
def rfScalarKeys : List String :=
  ["file-format", "file-version", "libtorrent-version", "allocation",
   "total_uploaded", "total_downloaded", "active_time", "finished_time",
   "seeding_time", "last_seen_complete", "last_download", "last_upload",
   "num_complete", "num_incomplete", "num_downloaded", "seed_mode",
   "upload_mode", "share_mode", "apply_ip_filter", "paused", "auto_managed",
   "super_seeding", "sequential_download", "stop_when_ready", "disable_dht",
   "disable_lsd", "disable_pex", "added_time", "completed_time", "save_path",
   "info-hash", "info-hash2"]

/-! ## Theorems -/

theorem lookup_setKey_self (d : Dict) (k : String) (v : Entry) :
    lookupKey (setKey d k v) k = some v := by
  induction d with
  | nil => simp [setKey, lookupKey]
  | cons hd tl ih =>
      obtain ⟨k', v'⟩ := hd
      by_cases h : k' = k <;> simp [setKey, lookupKey, h, ih]

theorem lookup_setKey_ne (d : Dict) (k k' : String) (v : Entry) (h : k' ≠ k) :
    lookupKey (setKey d k v) k' = lookupKey d k' := by
  induction d with
  | nil => simp [setKey, lookupKey, Ne.symm h]
  | cons hd tl ih =>
      obtain ⟨k₀, v₀⟩ := hd
      by_cases h₀ : k₀ = k
      · subst h₀
        simp [setKey, lookupKey, Ne.symm h]
      · simp only [setKey, lookupKey, if_neg h₀]
        by_cases h₁ : k₀ = k' <;> simp [h₁, ih]

theorem lookup_ensureList_preserve (d : Dict) (k k' : String) (v : Entry)
    (h : lookupKey d k' = some v) : lookupKey (ensureList d k) k' = some v := by
  unfold ensureList
  cases hl : lookupKey d k with
  | some _ => simpa using h
  | none =>
      by_cases hk : k' = k
      · subst hk; rw [h] at hl; cases hl
      · rw [lookup_setKey_ne _ _ _ _ hk]; exact h

theorem lookup_ensureList_ne (d : Dict) (k k' : String) (h : k' ≠ k) :
    lookupKey (ensureList d k) k' = lookupKey d k' := by
  unfold ensureList
  cases lookupKey d k with
  | some _ => rfl
  | none => rw [lookup_setKey_ne _ _ _ _ h]

theorem lookupKey_ite (c : Prop) [Decidable c] (a b : Dict) (k : String) :
    lookupKey (if c then a else b) k
      = if c then lookupKey a k else lookupKey b k := by
  split <;> rfl

theorem lookup_ensureList_self (d : Dict) (k : String) :
    lookupKey (ensureList d k) k = some ((lookupKey d k).getD (.list [])) := by
  unfold ensureList
  cases h : lookupKey d k with
  | some v => simp [h]
  | none => simp [lookup_setKey_self]

/-! ### Which keys each stage of the writer touches -/

theorem tfInfo_ne (atp : AddTorrentParams) (d : Dict) (k : String)
    (h1 : k ≠ "info") (h2 : k ≠ "comment") (h3 : k ≠ "creation date")
    (h4 : k ≠ "created by") : lookupKey (tfInfo atp d) k = lookupKey d k := by
  cases hti : atp.ti with
  | none => simp [tfInfo, hti]
  | some ti =>
      simp only [tfInfo, hti, lookupKey_ite, lookup_setKey_ne _ _ _ _ h1,
        lookup_setKey_ne _ _ _ _ h2, lookup_setKey_ne _ _ _ _ h3,
        lookup_setKey_ne _ _ _ _ h4, ite_self]

theorem tfPieceLayers_ne (atp : AddTorrentParams) (d : Dict) (k : String)
    (h : k ≠ "piece layers") :
    lookupKey (tfPieceLayers atp d) k = lookupKey d k := by
  simp only [tfPieceLayers, lookupKey_ite, lookup_setKey_ne _ _ _ _ h, ite_self]

theorem tfWebSeeds_ne (atp : AddTorrentParams) (d : Dict) (k : String)
    (h1 : k ≠ "url-list") (h2 : k ≠ "httpseeds") :
    lookupKey (tfWebSeeds atp d) k = lookupKey d k := by
  simp only [tfWebSeeds, lookupKey_ite, lookup_setKey_ne _ _ _ _ h1,
    lookup_setKey_ne _ _ _ _ h2, ite_self]

theorem tfName_ne (atp : AddTorrentParams) (d : Dict) (k : String)
    (h : k ≠ "name") : lookupKey (tfName atp d) k = lookupKey d k := by
  simp only [tfName, lookupKey_ite, lookup_setKey_ne _ _ _ _ h, ite_self]

theorem tfTrackers_ne (atp : AddTorrentParams) (d : Dict) (k : String)
    (h1 : k ≠ "announce") (h2 : k ≠ "announce-list") :
    lookupKey (tfTrackers atp d) k = lookupKey d k := by
  simp only [tfTrackers, lookupKey_ite, lookup_setKey_ne _ _ _ _ h1,
    lookup_setKey_ne _ _ _ _ h2, ite_self]

/-- A key outside the `.torrent` key set is absent from the
`.torrent`-mode output. -/
theorem torrentFields_lookup_none (atp : AddTorrentParams) (k : String)
    (h : k ∉ torrentKeys) : lookupKey (torrentFields atp) k = none := by
  simp only [torrentKeys, List.mem_cons, List.not_mem_nil, or_false, not_or] at h
  obtain ⟨h1, h2, h3, h4, h5, h6, h7, h8, h9, h10⟩ := h
  unfold torrentFields
  rw [tfTrackers_ne _ _ _ h9 h10, tfName_ne _ _ _ h8, tfWebSeeds_ne _ _ _ h6 h7,
    tfPieceLayers_ne _ _ _ h5, tfInfo_ne _ _ _ h1 h2 h3 h4]
  rfl

theorem rfTrees_ne (atp : AddTorrentParams) (d : Dict) (k : String)
    (h : k ≠ "trees") : lookupKey (rfTrees atp d) k = lookupKey d k := by
  simp only [rfTrees, lookupKey_ite, lookup_setKey_ne _ _ _ _ h, ite_self]

theorem rfTrackersDup_ne (atp : AddTorrentParams) (d : Dict) (k : String)
    (h : k ≠ "trackers") :
    lookupKey (rfTrackersDup atp d) k = lookupKey d k := by
  unfold rfTrackersDup
  split
  · exact lookup_ensureList_ne _ _ _ h
  · split <;> exact lookup_setKey_ne _ _ _ _ h

theorem rfWebEmpty_ne (atp : AddTorrentParams) (d : Dict) (k : String)
    (h1 : k ≠ "url-list") (h2 : k ≠ "httpseeds") :
    lookupKey (rfWebEmpty atp d) k = lookupKey d k := by
  simp only [rfWebEmpty, lookupKey_ite, lookup_ensureList_ne _ _ _ h1,
    lookup_ensureList_ne _ _ _ h2, ite_self]

theorem rfScalars_ne (atp : AddTorrentParams) (d : Dict) (k : String)
    (h : k ∉ rfScalarKeys) : lookupKey (rfScalars atp d) k = lookupKey d k := by
  simp only [rfScalarKeys, List.mem_cons, List.not_mem_nil, or_false, not_or] at h
  obtain ⟨h1, h2, h3, h4, h5, h6, h7, h8, h9, h10, h11, h12, h13, h14, h15, h16,
    h17, h18, h19, h20, h21, h22, h23, h24, h25, h26, h27, h28, h29, h30,
    h31, h32⟩ := h
  simp only [rfScalars, lookup_setKey_ne _ _ _ _ h1, lookup_setKey_ne _ _ _ _ h2,
    lookup_setKey_ne _ _ _ _ h3, lookup_setKey_ne _ _ _ _ h4,
    lookup_setKey_ne _ _ _ _ h5, lookup_setKey_ne _ _ _ _ h6,
    lookup_setKey_ne _ _ _ _ h7, lookup_setKey_ne _ _ _ _ h8,
    lookup_setKey_ne _ _ _ _ h9, lookup_setKey_ne _ _ _ _ h10,
    lookup_setKey_ne _ _ _ _ h11, lookup_setKey_ne _ _ _ _ h12,
    lookup_setKey_ne _ _ _ _ h13, lookup_setKey_ne _ _ _ _ h14,
    lookup_setKey_ne _ _ _ _ h15, lookup_setKey_ne _ _ _ _ h16,
    lookup_setKey_ne _ _ _ _ h17, lookup_setKey_ne _ _ _ _ h18,
    lookup_setKey_ne _ _ _ _ h19, lookup_setKey_ne _ _ _ _ h20,
    lookup_setKey_ne _ _ _ _ h21, lookup_setKey_ne _ _ _ _ h22,
    lookup_setKey_ne _ _ _ _ h23, lookup_setKey_ne _ _ _ _ h24,
    lookup_setKey_ne _ _ _ _ h25, lookup_setKey_ne _ _ _ _ h26,
    lookup_setKey_ne _ _ _ _ h27, lookup_setKey_ne _ _ _ _ h28,
    lookup_setKey_ne _ _ _ _ h29, lookup_setKey_ne _ _ _ _ h30,
    lookup_setKey_ne _ _ _ _ h31, lookup_setKey_ne _ _ _ _ h32]

theorem rfUnfinished_ne (atp : AddTorrentParams) (d : Dict) (k : String)
    (h : k ≠ "unfinished") :
    lookupKey (rfUnfinished atp d) k = lookupKey d k := by
  simp only [rfUnfinished, lookupKey_ite, lookup_setKey_ne _ _ _ _ h, ite_self]

theorem rfPieces_ne (atp : AddTorrentParams) (d : Dict) (k : String)
    (h : k ≠ "pieces") : lookupKey (rfPieces atp d) k = lookupKey d k := by
  simp only [rfPieces, lookup_setKey_ne _ _ _ _ h]

theorem rfMapped_ne (atp : AddTorrentParams) (d : Dict) (k : String)
    (h : k ≠ "mapped_files") :
    lookupKey (rfMapped atp d) k = lookupKey d k := by
  simp only [rfMapped, lookupKey_ite, lookup_setKey_ne _ _ _ _ h, ite_self]

theorem rfPeers_ne (atp : AddTorrentParams) (d : Dict) (k : String)
    (h1 : k ≠ "peers") (h2 : k ≠ "peers6") :
    lookupKey (rfPeers atp d) k = lookupKey d k := by
  simp only [rfPeers, lookupKey_ite, lookup_setKey_ne _ _ _ _ h1,
    lookup_setKey_ne _ _ _ _ h2, ite_self]

theorem rfBanned_ne (atp : AddTorrentParams) (d : Dict) (k : String)
    (h1 : k ≠ "banned_peers") (h2 : k ≠ "banned_peers6") :
    lookupKey (rfBanned atp d) k = lookupKey d k := by
  simp only [rfBanned, lookupKey_ite, lookup_setKey_ne _ _ _ _ h1,
    lookup_setKey_ne _ _ _ _ h2, ite_self]

theorem rfLimits_ne (atp : AddTorrentParams) (d : Dict) (k : String)
    (h1 : k ≠ "upload_rate_limit") (h2 : k ≠ "download_rate_limit")
    (h3 : k ≠ "max_connections") (h4 : k ≠ "max_uploads") :
    lookupKey (rfLimits atp d) k = lookupKey d k := by
  simp only [rfLimits, lookup_setKey_ne _ _ _ _ h1, lookup_setKey_ne _ _ _ _ h2,
    lookup_setKey_ne _ _ _ _ h3, lookup_setKey_ne _ _ _ _ h4]

theorem rfFilePrio_ne (atp : AddTorrentParams) (d : Dict) (k : String)
    (h : k ≠ "file_priority") :
    lookupKey (rfFilePrio atp d) k = lookupKey d k := by
  simp only [rfFilePrio, lookupKey_ite, lookup_setKey_ne _ _ _ _ h, ite_self]

theorem rfPiecePrio_ne (atp : AddTorrentParams) (d : Dict) (k : String)
    (h : k ≠ "piece_priority") :
    lookupKey (rfPiecePrio atp d) k = lookupKey d k := by
  simp only [rfPiecePrio, lookupKey_ite, lookup_setKey_ne _ _ _ _ h, ite_self]

/-- Lookup in the resume output reduces, for any key the stages after
the scalar block do not touch, to lookup after the scalar block. -/
theorem resumeFields_to_scalars (atp : AddTorrentParams) (d : Dict) (k : String)
    (h1 : k ≠ "piece_priority") (h2 : k ≠ "file_priority")
    (h3 : k ≠ "upload_rate_limit") (h4 : k ≠ "download_rate_limit")
    (h5 : k ≠ "max_connections") (h6 : k ≠ "max_uploads")
    (h7 : k ≠ "banned_peers") (h8 : k ≠ "banned_peers6")
    (h9 : k ≠ "peers") (h10 : k ≠ "peers6") (h11 : k ≠ "mapped_files")
    (h12 : k ≠ "pieces") (h13 : k ≠ "unfinished") :
    lookupKey (resumeFields atp d) k =
      lookupKey (rfScalars atp
        (rfWebEmpty atp (rfTrackersDup atp (rfTrees atp d)))) k := by
  unfold resumeFields
  rw [rfPiecePrio_ne _ _ _ h1, rfFilePrio_ne _ _ _ h2,
    rfLimits_ne _ _ _ h3 h4 h5 h6, rfBanned_ne _ _ _ h7 h8,
    rfPeers_ne _ _ _ h9 h10, rfMapped_ne _ _ _ h11, rfPieces_ne _ _ _ h12,
    rfUnfinished_ne _ _ _ h13]

/-- C5: for every `add_torrent_params`, the dictionary written by
`write_resume_data` maps `file-format` to the string
"libtorrent resume file" and `file-version` to the integer 1, while the
dictionary written by `write_torrent_file` contains neither key. -/
theorem C5_required_identity_keys (atp : AddTorrentParams) :
    lookupKey (write_resume_data atp) "file-format"
        = some (.str (strB "libtorrent resume file")) ∧
    lookupKey (write_resume_data atp) "file-version" = some (.int 1) ∧
    lookupKey (write_torrent_file atp) "file-format" = none ∧
    lookupKey (write_torrent_file atp) "file-version" = none := by
  refine ⟨?_, ?_, ?_, ?_⟩
  · show lookupKey (resumeFields atp (torrentFields atp)) _ = _
    rw [resumeFields_to_scalars atp _ _ (by decide) (by decide) (by decide)
      (by decide) (by decide) (by decide) (by decide) (by decide) (by decide)
      (by decide) (by decide) (by decide) (by decide)]
    simp only [rfScalars, lookup_setKey_ne, lookup_setKey_self, ne_eq,
      String.reduceEq, not_false_eq_true]
  · show lookupKey (resumeFields atp (torrentFields atp)) _ = _
    rw [resumeFields_to_scalars atp _ _ (by decide) (by decide) (by decide)
      (by decide) (by decide) (by decide) (by decide) (by decide) (by decide)
      (by decide) (by decide) (by decide) (by decide)]
    simp only [rfScalars, lookup_setKey_ne, lookup_setKey_self, ne_eq,
      String.reduceEq, not_false_eq_true]
  · exact torrentFields_lookup_none atp _ (by decide)
  · exact torrentFields_lookup_none atp _ (by decide)

/-! ### Stages that do nothing when their field is unset -/

theorem tfInfo_none (atp : AddTorrentParams) (d : Dict) (h : atp.ti = none) :
    tfInfo atp d = d := by simp [tfInfo, h]

theorem tfPieceLayers_empty (atp : AddTorrentParams) (d : Dict)
    (h : atp.merkle_trees = []) : tfPieceLayers atp d = d := by
  simp [tfPieceLayers, h]

theorem rfTrees_empty (atp : AddTorrentParams) (d : Dict)
    (h : atp.merkle_trees = []) : rfTrees atp d = d := by simp [rfTrees, h]

theorem rfUnfinished_empty (atp : AddTorrentParams) (d : Dict)
    (h : atp.unfinished_pieces = []) : rfUnfinished atp d = d := by
  simp [rfUnfinished, h]

theorem rfMapped_empty (atp : AddTorrentParams) (d : Dict)
    (h : atp.renamed_files = []) : rfMapped atp d = d := by simp [rfMapped, h]

theorem rfPeers_empty (atp : AddTorrentParams) (d : Dict)
    (h : atp.peers = []) : rfPeers atp d = d := by simp [rfPeers, h]

theorem rfBanned_empty (atp : AddTorrentParams) (d : Dict)
    (h : atp.banned_peers = []) : rfBanned atp d = d := by simp [rfBanned, h]

theorem rfFilePrio_empty (atp : AddTorrentParams) (d : Dict)
    (h : atp.file_priorities = []) : rfFilePrio atp d = d := by
  simp [rfFilePrio, h]

theorem rfPiecePrio_empty (atp : AddTorrentParams) (d : Dict)
    (h : atp.piece_priorities = []) : rfPiecePrio atp d = d := by
  simp [rfPiecePrio, h]

/-- Below the scalar block, a key not written by the web/trackers/trees
stages nor by the `.torrent` part resolves to nothing. -/
theorem bottom_lookup_none (atp : AddTorrentParams) (k : String)
    (h1 : k ≠ "url-list") (h2 : k ≠ "httpseeds") (h3 : k ≠ "trackers")
    (h4 : k ≠ "trees") (h5 : k ∉ torrentKeys) :
    lookupKey (rfWebEmpty atp (rfTrackersDup atp (rfTrees atp
      (torrentFields atp)))) k = none := by
  rw [rfWebEmpty_ne _ _ _ h1 h2, rfTrackersDup_ne _ _ _ h3,
    rfTrees_ne _ _ _ h4, torrentFields_lookup_none _ _ h5]

/-! ### Per-key presence/absence in the resume output -/

theorem resume_urllist_empty (atp : AddTorrentParams)
    (h : atp.url_seeds = []) :
    lookupKey (write_resume_data atp) "url-list" = some (.list []) := by
  show lookupKey (resumeFields atp (torrentFields atp)) _ = _
  rw [resumeFields_to_scalars atp _ _ (by decide) (by decide) (by decide)
    (by decide) (by decide) (by decide) (by decide) (by decide) (by decide)
    (by decide) (by decide) (by decide) (by decide),
    rfScalars_ne _ _ _ (by decide)]
  simp only [rfWebEmpty, h, eq_self_iff_true, if_true, lookupKey_ite,
    lookup_ensureList_ne _ _ _ (by decide : ("url-list" : String) ≠ "httpseeds"),
    ite_self, lookup_ensureList_self]
  rw [rfTrackersDup_ne _ _ _ (by decide), rfTrees_ne _ _ _ (by decide)]
  unfold torrentFields
  rw [tfTrackers_ne _ _ _ (by decide) (by decide), tfName_ne _ _ _ (by decide)]
  simp only [tfWebSeeds, h, ne_eq, eq_self_iff_true, not_true_eq_false,
    if_false, lookupKey_ite,
    lookup_setKey_ne _ _ _ _ (by decide : ("url-list" : String) ≠ "httpseeds"),
    ite_self]
  rw [tfPieceLayers_ne _ _ _ (by decide),
    tfInfo_ne _ _ _ (by decide) (by decide) (by decide) (by decide)]
  rfl

theorem resume_httpseeds_empty (atp : AddTorrentParams)
    (h : atp.http_seeds = []) :
    lookupKey (write_resume_data atp) "httpseeds" = some (.list []) := by
  show lookupKey (resumeFields atp (torrentFields atp)) _ = _
  rw [resumeFields_to_scalars atp _ _ (by decide) (by decide) (by decide)
    (by decide) (by decide) (by decide) (by decide) (by decide) (by decide)
    (by decide) (by decide) (by decide) (by decide),
    rfScalars_ne _ _ _ (by decide)]
  simp only [rfWebEmpty, h, eq_self_iff_true, if_true, lookupKey_ite,
    ite_self, lookup_ensureList_self,
    lookup_ensureList_ne _ _ _ (by decide : ("httpseeds" : String) ≠ "url-list")]
  rw [rfTrackersDup_ne _ _ _ (by decide), rfTrees_ne _ _ _ (by decide)]
  unfold torrentFields
  rw [tfTrackers_ne _ _ _ (by decide) (by decide), tfName_ne _ _ _ (by decide)]
  simp only [tfWebSeeds, h, ne_eq, eq_self_iff_true, not_true_eq_false,
    if_false, lookupKey_ite,
    lookup_setKey_ne _ _ _ _ (by decide : ("httpseeds" : String) ≠ "url-list"),
    ite_self]
  rw [tfPieceLayers_ne _ _ _ (by decide),
    tfInfo_ne _ _ _ (by decide) (by decide) (by decide) (by decide)]
  rfl

theorem resume_trackers_empty (atp : AddTorrentParams)
    (h : atp.trackers = []) :
    lookupKey (write_resume_data atp) "trackers" = some (.list []) := by
  show lookupKey (resumeFields atp (torrentFields atp)) _ = _
  rw [resumeFields_to_scalars atp _ _ (by decide) (by decide) (by decide)
    (by decide) (by decide) (by decide) (by decide) (by decide) (by decide)
    (by decide) (by decide) (by decide) (by decide),
    rfScalars_ne _ _ _ (by decide),
    rfWebEmpty_ne _ _ _ (by decide) (by decide)]
  simp only [rfTrackersDup, h, eq_self_iff_true, if_true,
    lookup_ensureList_self]
  rw [rfTrees_ne _ _ _ (by decide),
    torrentFields_lookup_none _ _ (by decide)]
  rfl

theorem resume_unfinished_none (atp : AddTorrentParams)
    (h : atp.unfinished_pieces = []) :
    lookupKey (write_resume_data atp) "unfinished" = none := by
  show lookupKey (resumeFields atp (torrentFields atp)) _ = _
  unfold resumeFields
  rw [rfPiecePrio_ne _ _ _ (by decide), rfFilePrio_ne _ _ _ (by decide),
    rfLimits_ne _ _ _ (by decide) (by decide) (by decide) (by decide),
    rfBanned_ne _ _ _ (by decide) (by decide),
    rfPeers_ne _ _ _ (by decide) (by decide), rfMapped_ne _ _ _ (by decide),
    rfPieces_ne _ _ _ (by decide), rfUnfinished_empty _ _ h,
    rfScalars_ne _ _ _ (by decide)]
  exact bottom_lookup_none atp _ (by decide) (by decide) (by decide)
    (by decide) (by decide)

theorem resume_mapped_none (atp : AddTorrentParams)
    (h : atp.renamed_files = []) :
    lookupKey (write_resume_data atp) "mapped_files" = none := by
  show lookupKey (resumeFields atp (torrentFields atp)) _ = _
  unfold resumeFields
  rw [rfPiecePrio_ne _ _ _ (by decide), rfFilePrio_ne _ _ _ (by decide),
    rfLimits_ne _ _ _ (by decide) (by decide) (by decide) (by decide),
    rfBanned_ne _ _ _ (by decide) (by decide),
    rfPeers_ne _ _ _ (by decide) (by decide), rfMapped_empty _ _ h,
    rfPieces_ne _ _ _ (by decide), rfUnfinished_ne _ _ _ (by decide),
    rfScalars_ne _ _ _ (by decide)]
  exact bottom_lookup_none atp _ (by decide) (by decide) (by decide)
    (by decide) (by decide)

theorem resume_peers_none (atp : AddTorrentParams) (h : atp.peers = []) :
    lookupKey (write_resume_data atp) "peers" = none ∧
    lookupKey (write_resume_data atp) "peers6" = none := by
  constructor <;>
  · show lookupKey (resumeFields atp (torrentFields atp)) _ = _
    unfold resumeFields
    rw [rfPiecePrio_ne _ _ _ (by decide), rfFilePrio_ne _ _ _ (by decide),
      rfLimits_ne _ _ _ (by decide) (by decide) (by decide) (by decide),
      rfBanned_ne _ _ _ (by decide) (by decide), rfPeers_empty _ _ h,
      rfMapped_ne _ _ _ (by decide), rfPieces_ne _ _ _ (by decide),
      rfUnfinished_ne _ _ _ (by decide), rfScalars_ne _ _ _ (by decide)]
    exact bottom_lookup_none atp _ (by decide) (by decide) (by decide)
      (by decide) (by decide)

theorem resume_banned_none (atp : AddTorrentParams)
    (h : atp.banned_peers = []) :
    lookupKey (write_resume_data atp) "banned_peers" = none ∧
    lookupKey (write_resume_data atp) "banned_peers6" = none := by
  constructor <;>
  · show lookupKey (resumeFields atp (torrentFields atp)) _ = _
    unfold resumeFields
    rw [rfPiecePrio_ne _ _ _ (by decide), rfFilePrio_ne _ _ _ (by decide),
      rfLimits_ne _ _ _ (by decide) (by decide) (by decide) (by decide),
      rfBanned_empty _ _ h, rfPeers_ne _ _ _ (by decide) (by decide),
      rfMapped_ne _ _ _ (by decide), rfPieces_ne _ _ _ (by decide),
      rfUnfinished_ne _ _ _ (by decide), rfScalars_ne _ _ _ (by decide)]
    exact bottom_lookup_none atp _ (by decide) (by decide) (by decide)
      (by decide) (by decide)

theorem resume_fileprio_none (atp : AddTorrentParams)
    (h : atp.file_priorities = []) :
    lookupKey (write_resume_data atp) "file_priority" = none := by
  show lookupKey (resumeFields atp (torrentFields atp)) _ = _
  unfold resumeFields
  rw [rfPiecePrio_ne _ _ _ (by decide), rfFilePrio_empty _ _ h,
    rfLimits_ne _ _ _ (by decide) (by decide) (by decide) (by decide),
    rfBanned_ne _ _ _ (by decide) (by decide),
    rfPeers_ne _ _ _ (by decide) (by decide), rfMapped_ne _ _ _ (by decide),
    rfPieces_ne _ _ _ (by decide), rfUnfinished_ne _ _ _ (by decide),
    rfScalars_ne _ _ _ (by decide)]
  exact bottom_lookup_none atp _ (by decide) (by decide) (by decide)
    (by decide) (by decide)

theorem resume_pieceprio_none (atp : AddTorrentParams)
    (h : atp.piece_priorities = []) :
    lookupKey (write_resume_data atp) "piece_priority" = none := by
  show lookupKey (resumeFields atp (torrentFields atp)) _ = _
  unfold resumeFields
  rw [rfPiecePrio_empty _ _ h, rfFilePrio_ne _ _ _ (by decide),
    rfLimits_ne _ _ _ (by decide) (by decide) (by decide) (by decide),
    rfBanned_ne _ _ _ (by decide) (by decide),
    rfPeers_ne _ _ _ (by decide) (by decide), rfMapped_ne _ _ _ (by decide),
    rfPieces_ne _ _ _ (by decide), rfUnfinished_ne _ _ _ (by decide),
    rfScalars_ne _ _ _ (by decide)]
  exact bottom_lookup_none atp _ (by decide) (by decide) (by decide)
    (by decide) (by decide)

theorem resume_trees_none (atp : AddTorrentParams)
    (h : atp.merkle_trees = []) :
    lookupKey (write_resume_data atp) "trees" = none := by
  show lookupKey (resumeFields atp (torrentFields atp)) _ = _
  rw [resumeFields_to_scalars atp _ _ (by decide) (by decide) (by decide)
    (by decide) (by decide) (by decide) (by decide) (by decide) (by decide)
    (by decide) (by decide) (by decide) (by decide),
    rfScalars_ne _ _ _ (by decide),
    rfWebEmpty_ne _ _ _ (by decide) (by decide),
    rfTrackersDup_ne _ _ _ (by decide), rfTrees_empty _ _ h,
    torrentFields_lookup_none _ _ (by decide)]

theorem resume_piecelayers_none (atp : AddTorrentParams)
    (h : atp.merkle_trees = []) :
    lookupKey (write_resume_data atp) "piece layers" = none := by
  show lookupKey (resumeFields atp (torrentFields atp)) _ = _
  rw [resumeFields_to_scalars atp _ _ (by decide) (by decide) (by decide)
    (by decide) (by decide) (by decide) (by decide) (by decide) (by decide)
    (by decide) (by decide) (by decide) (by decide),
    rfScalars_ne _ _ _ (by decide),
    rfWebEmpty_ne _ _ _ (by decide) (by decide),
    rfTrackersDup_ne _ _ _ (by decide), rfTrees_ne _ _ _ (by decide)]
  unfold torrentFields
  rw [tfTrackers_ne _ _ _ (by decide) (by decide), tfName_ne _ _ _ (by decide),
    tfWebSeeds_ne _ _ _ (by decide) (by decide), tfPieceLayers_empty _ _ h,
    tfInfo_ne _ _ _ (by decide) (by decide) (by decide) (by decide)]
  rfl

theorem resume_info_none (atp : AddTorrentParams) (h : atp.ti = none) :
    lookupKey (write_resume_data atp) "info" = none ∧
    lookupKey (write_resume_data atp) "comment" = none ∧
    lookupKey (write_resume_data atp) "creation date" = none ∧
    lookupKey (write_resume_data atp) "created by" = none := by
  refine ⟨?_, ?_, ?_, ?_⟩ <;>
  · show lookupKey (resumeFields atp (torrentFields atp)) _ = _
    rw [resumeFields_to_scalars atp _ _ (by decide) (by decide) (by decide)
      (by decide) (by decide) (by decide) (by decide) (by decide) (by decide)
      (by decide) (by decide) (by decide) (by decide),
      rfScalars_ne _ _ _ (by decide),
      rfWebEmpty_ne _ _ _ (by decide) (by decide),
      rfTrackersDup_ne _ _ _ (by decide), rfTrees_ne _ _ _ (by decide)]
    unfold torrentFields
    rw [tfTrackers_ne _ _ _ (by decide) (by decide), tfName_ne _ _ _ (by decide),
      tfWebSeeds_ne _ _ _ (by decide) (by decide),
      tfPieceLayers_ne _ _ _ (by decide), tfInfo_none _ _ h]
    rfl

/-- C7: empty-but-meaningful collections (`url-list`, `httpseeds`,
`trackers`) are emitted as empty lists by `write_resume_data`, while
optional fields that were never set are omitted altogether. -/
theorem C7_presence_rules (atp : AddTorrentParams) :
    (atp.url_seeds = [] →
      lookupKey (write_resume_data atp) "url-list" = some (.list [])) ∧
    (atp.http_seeds = [] →
      lookupKey (write_resume_data atp) "httpseeds" = some (.list [])) ∧
    (atp.trackers = [] →
      lookupKey (write_resume_data atp) "trackers" = some (.list [])) ∧
    (atp.unfinished_pieces = [] →
      lookupKey (write_resume_data atp) "unfinished" = none) ∧
    (atp.renamed_files = [] →
      lookupKey (write_resume_data atp) "mapped_files" = none) ∧
    (atp.peers = [] →
      lookupKey (write_resume_data atp) "peers" = none ∧
      lookupKey (write_resume_data atp) "peers6" = none) ∧
    (atp.banned_peers = [] →
      lookupKey (write_resume_data atp) "banned_peers" = none ∧
      lookupKey (write_resume_data atp) "banned_peers6" = none) ∧
    (atp.file_priorities = [] →
      lookupKey (write_resume_data atp) "file_priority" = none) ∧
    (atp.piece_priorities = [] →
      lookupKey (write_resume_data atp) "piece_priority" = none) ∧
    (atp.merkle_trees = [] →
      lookupKey (write_resume_data atp) "trees" = none ∧
      lookupKey (write_resume_data atp) "piece layers" = none) ∧
    (atp.ti = none →
      lookupKey (write_resume_data atp) "info" = none ∧
      lookupKey (write_resume_data atp) "comment" = none ∧
      lookupKey (write_resume_data atp) "creation date" = none ∧
      lookupKey (write_resume_data atp) "created by" = none) :=
  ⟨resume_urllist_empty atp, resume_httpseeds_empty atp,
   resume_trackers_empty atp, resume_unfinished_none atp,
   resume_mapped_none atp, resume_peers_none atp, resume_banned_none atp,
   resume_fileprio_none atp, resume_pieceprio_none atp,
   fun h => ⟨resume_trees_none atp h, resume_piecelayers_none atp h⟩,
   resume_info_none atp⟩

/-! ### The `pieces` bitmask -/

theorem writeHave_length (bs : List Nat) (hv : List Bool) :
    (writeHave bs hv).length = bs.length := by
  induction bs generalizing hv with
  | nil => cases hv <;> rfl
  | cons b bs ih =>
      cases hv with
      | nil => rfl
      | cons x xs => simp [writeHave, ih]

theorem orVerified_length (bs : List Nat) (vf : List Bool) :
    (orVerified bs vf).length = bs.length := by
  induction bs generalizing vf with
  | nil => cases vf <;> rfl
  | cons b bs ih =>
      cases vf with
      | nil => rfl
      | cons x xs => simp [orVerified, ih]

theorem writeHave_getD (bs : List Nat) (hv : List Bool) (i : Nat) :
    (writeHave bs hv).getD i 0 =
      if i < hv.length ∧ i < bs.length then (if hv.getD i false then 1 else 0)
      else bs.getD i 0 := by
  induction bs generalizing hv i with
  | nil =>
      cases hv <;> simp [writeHave]
  | cons b bs ih =>
      cases hv with
      | nil => simp [writeHave]
      | cons x xs =>
          cases i with
          | zero => simp [writeHave]
          | succ j =>
              simp only [writeHave, List.getD_cons_succ, ih, List.length_cons]
              simp [Nat.succ_lt_succ_iff]

theorem orVerified_getD (bs : List Nat) (vf : List Bool) (i : Nat) :
    (orVerified bs vf).getD i 0 =
      if i < vf.length ∧ i < bs.length then
        bs.getD i 0 ||| (if vf.getD i false then 2 else 0)
      else bs.getD i 0 := by
  induction bs generalizing vf i with
  | nil => cases vf <;> simp [orVerified]
  | cons b bs ih =>
      cases vf with
      | nil => simp [orVerified]
      | cons x xs =>
          cases i with
          | zero => simp [orVerified]
          | succ j =>
              simp only [orVerified, List.getD_cons_succ, ih, List.length_cons]
              simp [Nat.succ_lt_succ_iff]

theorem getD_replicate_zero (n i : Nat) :
    (List.replicate n (0 : Nat)).getD i 0 = 0 := by
  induction n generalizing i with
  | zero => rfl
  | succ m ih => cases i <;> simp [List.replicate, ih]

theorem piecesBytes_length (hv vf : List Bool) :
    (piecesBytes hv vf).length = max hv.length vf.length := by
  unfold piecesBytes
  rw [orVerified_length, writeHave_length, List.length_replicate]

theorem piecesBytes_getD (hv vf : List Bool) (i : Nat)
    (h : i < max hv.length vf.length) :
    (piecesBytes hv vf).getD i 0 =
      (if hv.getD i false then 1 else 0) |||
        (if vf.getD i false then 2 else 0) := by
  unfold piecesBytes
  rw [orVerified_getD, writeHave_getD, writeHave_length, List.length_replicate,
    getD_replicate_zero]
  by_cases h1 : i < hv.length <;> by_cases h2 : i < vf.length
  · simp [h1, h2, h]
  · rw [List.getD_eq_default _ _ (by omega : vf.length ≤ i)]
    simp [h1, h2, h]
  · rw [List.getD_eq_default _ _ (by omega : hv.length ≤ i)]
    simp [h1, h2, h]
  · omega

/-- The lookup of `pieces` in the resume output. -/
theorem resume_pieces_lookup (atp : AddTorrentParams) :
    lookupKey (write_resume_data atp) "pieces"
      = some (.str (piecesBytes atp.have_pieces atp.verified_pieces)) := by
  show lookupKey (resumeFields atp (torrentFields atp)) _ = _
  unfold resumeFields
  rw [rfPiecePrio_ne _ _ _ (by decide), rfFilePrio_ne _ _ _ (by decide),
    rfLimits_ne _ _ _ (by decide) (by decide) (by decide) (by decide),
    rfBanned_ne _ _ _ (by decide) (by decide),
    rfPeers_ne _ _ _ (by decide) (by decide), rfMapped_ne _ _ _ (by decide)]
  exact lookup_setKey_self _ _ _

/-- C6: the `pieces` value is a byte string of length
`max |have| |verified|`; bit 0 of byte `i` is the have bit, bit 1 the
verified bit. -/
theorem C6_pieces_encoding (atp : AddTorrentParams) :
    lookupKey (write_resume_data atp) "pieces"
      = some (.str (piecesBytes atp.have_pieces atp.verified_pieces)) ∧
    (piecesBytes atp.have_pieces atp.verified_pieces).length
      = max atp.have_pieces.length atp.verified_pieces.length ∧
    ∀ i, i < max atp.have_pieces.length atp.verified_pieces.length →
      ((piecesBytes atp.have_pieces atp.verified_pieces).getD i 0).testBit 0
          = atp.have_pieces.getD i false ∧
      ((piecesBytes atp.have_pieces atp.verified_pieces).getD i 0).testBit 1
          = atp.verified_pieces.getD i false := by
  refine ⟨resume_pieces_lookup atp, piecesBytes_length _ _, ?_⟩
  intro i h
  rw [piecesBytes_getD _ _ _ h]
  cases hhv : atp.have_pieces.getD i false <;>
    cases hvf : atp.verified_pieces.getD i false <;> exact ⟨by decide, by decide⟩

/-- Witness: `C6_pieces_encoding` at a concrete input with one have
piece and two verified slots. -/
theorem C6_pieces_encoding_witness :
    (0 < max atpP.have_pieces.length atpP.verified_pieces.length ∧
     ((piecesBytes atpP.have_pieces atpP.verified_pieces).getD 0 0).testBit 0
        = atpP.have_pieces.getD 0 false) ∧
    (piecesBytes atpP.have_pieces atpP.verified_pieces).length
      = max atpP.have_pieces.length atpP.verified_pieces.length :=
  ⟨⟨by decide, ((C6_pieces_encoding atpP).2.2 0 (by decide)).1⟩,
   (C6_pieces_encoding atpP).2.1⟩

/-! ### Tracker tiers -/

theorem getD_replicate_self {α : Type} (a : α) (n i : Nat) :
    (List.replicate n a).getD i a = a := by
  induction n generalizing i with
  | zero => rfl
  | succ m ih => cases i <;> simp [List.replicate, ih]

theorem padTiers_getD (acc : List TierSlot) (n τ : Nat) :
    (padTiers acc n).getD τ none = acc.getD τ none := by
  unfold padTiers
  split
  · by_cases hτ : τ < acc.length
    · rw [List.getD_append _ _ _ _ hτ]
    · rw [List.getD_append_right _ _ _ _ (by omega), getD_replicate_self,
        List.getD_eq_default _ _ (by omega)]
  · rfl

theorem padTiers_length (acc : List TierSlot) (n : Nat) :
    (padTiers acc n).length = max acc.length (n + 1) := by
  unfold padTiers
  split <;> simp <;> omega

theorem appendAtTier_getD (acc : List TierSlot) (τ₀ : Nat) (tr : String)
    (τ : Nat) (h : τ₀ < acc.length) :
    (appendAtTier acc τ₀ tr).getD τ none =
      if τ₀ = τ then some ((acc.getD τ none).getD [] ++ [tr])
      else acc.getD τ none := by
  induction acc generalizing τ₀ τ with
  | nil => simp at h
  | cons t ts ih =>
      cases τ₀ with
      | zero =>
          cases τ with
          | zero => simp [appendAtTier]
          | succ s => simp [appendAtTier]
      | succ m =>
          cases τ with
          | zero => simp [appendAtTier]
          | succ s =>
              simp only [appendAtTier, List.getD_cons_succ,
                ih m s (by simp only [List.length_cons] at h; omega),
                Nat.succ.injEq]

theorem insertTier_getD (acc : List TierSlot) (tr : String) (τ₀ τ : Nat) :
    (insertTier acc (tr, τ₀)).getD τ none =
      if τ₀ = τ then some ((acc.getD τ none).getD [] ++ [tr])
      else acc.getD τ none := by
  simp only [insertTier]
  rw [appendAtTier_getD _ _ _ _ (by rw [padTiers_length]; omega), padTiers_getD]

/-- A tier slot after all insertions: untouched when no pair lands on
it, otherwise a list extending whatever the slot held (`[]` for a
fresh or undefined slot) with its trackers in order. -/
theorem foldl_insertTier_getD (pairs : List (String × Nat)) :
    ∀ (acc : List TierSlot) (τ : Nat),
      (pairs.foldl insertTier acc).getD τ none =
        if pairs.filterMap (fun p => if p.2 = τ then some p.1 else none) = []
        then acc.getD τ none
        else some ((acc.getD τ none).getD [] ++
          pairs.filterMap (fun p => if p.2 = τ then some p.1 else none)) := by
  induction pairs with
  | nil => intro acc τ; simp
  | cons p ps ih =>
      intro acc τ
      obtain ⟨tr, τ₀⟩ := p
      by_cases hτ : τ₀ = τ
      · subst hτ
        have hcons : (((tr, τ₀) :: ps).filterMap
              (fun p => if p.2 = τ₀ then some p.1 else none))
            = tr :: ps.filterMap (fun p => if p.2 = τ₀ then some p.1 else none) := by
          simp
        rw [List.foldl_cons, ih, hcons, insertTier_getD]
        simp only [if_pos rfl]
        by_cases hf : ps.filterMap
            (fun p => if p.2 = τ₀ then some p.1 else none) = []
        · simp [hf]
        · simp [hf]
      · have hcons : (((tr, τ₀) :: ps).filterMap
              (fun p => if p.2 = τ then some p.1 else none))
            = ps.filterMap (fun p => if p.2 = τ then some p.1 else none) := by
          simp [hτ]
        rw [List.foldl_cons, ih, hcons, insertTier_getD]
        simp [hτ]

theorem addTrackersGo_eq_foldl (trs : List String) (tiers : List Int)
    (cur : Nat) (acc : List TierSlot) :
    addTrackersGo trs tiers cur acc =
      (trs.zip (effTierList cur tiers trs.length)).foldl insertTier acc := by
  induction trs generalizing tiers cur acc with
  | nil => cases tiers <;> rfl
  | cons tr rest ih =>
      cases tiers with
      | nil =>
          simp only [addTrackersGo, List.length_cons, effTierList,
            List.zip_cons_cons, List.foldl_cons]
          exact ih [] cur _
      | cons i is =>
          simp only [addTrackersGo, List.length_cons, effTierList,
            List.zip_cons_cons, List.foldl_cons]
          exact ih is (clampTier i) _

/-- The slots of `announce-list`: tier 0 (pre-created as an empty list)
and every tier that received a tracker hold the list of their trackers
in order; every other slot inside the vector is the undefined entry
`resize` left behind. -/
theorem trackerTierLists_getD (atp : AddTorrentParams) (τ : Nat) :
    (trackerTierLists atp).getD τ none =
      (if τ = 0 ∨
          (atp.trackers.zip
            (effTierList 0 atp.tracker_tiers atp.trackers.length)).filterMap
              (fun p => if p.2 = τ then some p.1 else none) ≠ [] then
        some ((atp.trackers.zip
          (effTierList 0 atp.tracker_tiers atp.trackers.length)).filterMap
            (fun p => if p.2 = τ then some p.1 else none))
      else none) := by
  unfold trackerTierLists
  rw [addTrackersGo_eq_foldl, foldl_insertTier_getD]
  cases τ with
  | zero =>
      by_cases hf : (atp.trackers.zip
          (effTierList 0 atp.tracker_tiers atp.trackers.length)).filterMap
            (fun p => if p.2 = 0 then some p.1 else none) = []
      · simp [hf]
      · simp [hf]
  | succ s =>
      by_cases hf : (atp.trackers.zip
          (effTierList 0 atp.tracker_tiers atp.trackers.length)).filterMap
            (fun p => if p.2 = s + 1 then some p.1 else none) = []
      · simp [hf]
      · simp [hf]

theorem clampTier_le (i : Int) : clampTier i ≤ 1024 := by
  unfold clampTier
  split <;> omega

theorem effTierList_le (tiers : List Int) (cur n : Nat) (h : cur ≤ 1024) :
    ∀ e ∈ effTierList cur tiers n, e ≤ 1024 := by
  induction n generalizing cur tiers with
  | zero => intro e he; cases tiers <;> simp [effTierList] at he
  | succ m ih =>
      intro e he
      cases tiers with
      | nil =>
          simp only [effTierList, List.mem_cons] at he
          rcases he with rfl | he
          · exact h
          · exact ih [] cur h e he
      | cons i is =>
          simp only [effTierList, List.mem_cons] at he
          rcases he with rfl | he
          · exact clampTier_le i
          · exact ih is (clampTier i) (clampTier_le i) e he

theorem tfTrackers_single (atp : AddTorrentParams) (d : Dict) (tr : String)
    (h : atp.trackers = [tr]) :
    tfTrackers atp d = setKey d "announce" (.str (strB tr)) := by
  simp [tfTrackers, h]

theorem tfTrackers_multi (atp : AddTorrentParams) (d : Dict)
    (h : 2 ≤ atp.trackers.length) :
    tfTrackers atp d
      = setKey d "announce-list" (tiersToEntry (trackerTierLists atp)) := by
  have h0 : atp.trackers ≠ [] := by
    intro hl; rw [hl] at h; simp at h
  have h1 : atp.trackers.length ≠ 1 := by omega
  simp [tfTrackers, h0, h1]

/-- Keys untouched by every resume-only stage read through to the
`.torrent` part. -/
theorem resume_passthrough (atp : AddTorrentParams) (k : String)
    (hs : k ∉ rfScalarKeys)
    (h1 : k ≠ "piece_priority") (h2 : k ≠ "file_priority")
    (h3 : k ≠ "upload_rate_limit") (h4 : k ≠ "download_rate_limit")
    (h5 : k ≠ "max_connections") (h6 : k ≠ "max_uploads")
    (h7 : k ≠ "banned_peers") (h8 : k ≠ "banned_peers6")
    (h9 : k ≠ "peers") (h10 : k ≠ "peers6") (h11 : k ≠ "mapped_files")
    (h12 : k ≠ "pieces") (h13 : k ≠ "unfinished")
    (h14 : k ≠ "url-list") (h15 : k ≠ "httpseeds") (h16 : k ≠ "trackers")
    (h17 : k ≠ "trees") :
    lookupKey (write_resume_data atp) k = lookupKey (torrentFields atp) k := by
  show lookupKey (resumeFields atp (torrentFields atp)) _ = _
  rw [resumeFields_to_scalars atp _ _ h1 h2 h3 h4 h5 h6 h7 h8 h9 h10 h11 h12 h13,
    rfScalars_ne _ _ _ hs, rfWebEmpty_ne _ _ _ h14 h15,
    rfTrackersDup_ne _ _ _ h16, rfTrees_ne _ _ _ h17]

theorem torrent_announce_single (atp : AddTorrentParams) (tr : String)
    (h : atp.trackers = [tr]) :
    lookupKey (write_torrent_file atp) "announce" = some (.str (strB tr)) := by
  show lookupKey (torrentFields atp) _ = _
  unfold torrentFields
  rw [tfTrackers_single _ _ _ h]
  exact lookup_setKey_self _ _ _

theorem torrent_announcelist_single (atp : AddTorrentParams) (tr : String)
    (h : atp.trackers = [tr]) :
    lookupKey (write_torrent_file atp) "announce-list" = none := by
  show lookupKey (torrentFields atp) _ = _
  unfold torrentFields
  rw [tfTrackers_single _ _ _ h, lookup_setKey_ne _ _ _ _ (by decide),
    tfName_ne _ _ _ (by decide), tfWebSeeds_ne _ _ _ (by decide) (by decide),
    tfPieceLayers_ne _ _ _ (by decide),
    tfInfo_ne _ _ _ (by decide) (by decide) (by decide) (by decide)]
  rfl

theorem torrent_announce_multi (atp : AddTorrentParams)
    (h : 2 ≤ atp.trackers.length) :
    lookupKey (write_torrent_file atp) "announce" = none := by
  show lookupKey (torrentFields atp) _ = _
  unfold torrentFields
  rw [tfTrackers_multi _ _ h, lookup_setKey_ne _ _ _ _ (by decide),
    tfName_ne _ _ _ (by decide), tfWebSeeds_ne _ _ _ (by decide) (by decide),
    tfPieceLayers_ne _ _ _ (by decide),
    tfInfo_ne _ _ _ (by decide) (by decide) (by decide) (by decide)]
  rfl

theorem torrent_announcelist_multi (atp : AddTorrentParams)
    (h : 2 ≤ atp.trackers.length) :
    lookupKey (write_torrent_file atp) "announce-list"
      = some (tiersToEntry (trackerTierLists atp)) := by
  show lookupKey (torrentFields atp) _ = _
  unfold torrentFields
  rw [tfTrackers_multi _ _ h]
  exact lookup_setKey_self _ _ _

theorem resume_trackers_single (atp : AddTorrentParams) (tr : String)
    (h : atp.trackers = [tr]) :
    lookupKey (write_resume_data atp) "trackers"
      = some (.list [.list [.str (strB tr)]]) := by
  show lookupKey (resumeFields atp (torrentFields atp)) _ = _
  rw [resumeFields_to_scalars atp _ _ (by decide) (by decide) (by decide)
    (by decide) (by decide) (by decide) (by decide) (by decide) (by decide)
    (by decide) (by decide) (by decide) (by decide),
    rfScalars_ne _ _ _ (by decide),
    rfWebEmpty_ne _ _ _ (by decide) (by decide)]
  have h0 : ¬ atp.trackers = [] := by rw [h]; simp
  have h1 : atp.trackers.length = 1 := by rw [h]; rfl
  simp only [rfTrackersDup, h0, if_false, h1, if_true]
  rw [lookup_setKey_self]
  rw [rfTrees_ne _ _ _ (by decide)]
  have ha : lookupKey (torrentFields atp) "announce" = some (.str (strB tr)) :=
    torrent_announce_single atp tr h
  rw [ha]
  rfl

theorem resume_trackers_multi (atp : AddTorrentParams)
    (h : 2 ≤ atp.trackers.length) :
    lookupKey (write_resume_data atp) "trackers"
      = some (tiersToEntry (trackerTierLists atp)) := by
  show lookupKey (resumeFields atp (torrentFields atp)) _ = _
  rw [resumeFields_to_scalars atp _ _ (by decide) (by decide) (by decide)
    (by decide) (by decide) (by decide) (by decide) (by decide) (by decide)
    (by decide) (by decide) (by decide) (by decide),
    rfScalars_ne _ _ _ (by decide),
    rfWebEmpty_ne _ _ _ (by decide) (by decide)]
  have h0 : ¬ atp.trackers = [] := by
    intro hl; rw [hl] at h; simp at h
  have h1 : ¬ atp.trackers.length = 1 := by omega
  simp only [rfTrackersDup, h0, if_false, h1, if_true]
  rw [lookup_setKey_self]
  rw [rfTrees_ne _ _ _ (by decide)]
  have ha := torrent_announcelist_multi atp h
  unfold write_torrent_file writeResumeDataImpl at ha
  simp only [if_true] at ha
  rw [ha]
  rfl

/-- C8 (amended): a single tracker is written as `announce` (no
`announce-list`); two or more trackers as `announce-list`, a list
indexed by tier in which each tracker is appended at its effective
(clamped, carried-over) tier; tier 0 (pre-created) and every tier that
received a tracker are lists of their trackers in order, while tiers
skipped over by the `resize` hold default-constructed undefined
entries rather than lists; the resume-only `trackers` key duplicates
this view. -/
theorem C8_tracker_encoding (atp : AddTorrentParams) :
    (∀ tr, atp.trackers = [tr] →
      lookupKey (write_torrent_file atp) "announce" = some (.str (strB tr)) ∧
      lookupKey (write_torrent_file atp) "announce-list" = none ∧
      lookupKey (write_resume_data atp) "announce" = some (.str (strB tr)) ∧
      lookupKey (write_resume_data atp) "announce-list" = none ∧
      lookupKey (write_resume_data atp) "trackers"
        = some (.list [.list [.str (strB tr)]])) ∧
    (2 ≤ atp.trackers.length →
      lookupKey (write_torrent_file atp) "announce" = none ∧
      lookupKey (write_torrent_file atp) "announce-list"
        = some (tiersToEntry (trackerTierLists atp)) ∧
      lookupKey (write_resume_data atp) "announce-list"
        = some (tiersToEntry (trackerTierLists atp)) ∧
      lookupKey (write_resume_data atp) "trackers"
        = some (tiersToEntry (trackerTierLists atp))) ∧
    (atp.trackers = [] →
      lookupKey (write_resume_data atp) "trackers" = some (.list [])) ∧
    (∀ τ, (trackerTierLists atp).getD τ none =
      (if τ = 0 ∨
          (atp.trackers.zip
            (effTierList 0 atp.tracker_tiers atp.trackers.length)).filterMap
              (fun p => if p.2 = τ then some p.1 else none) ≠ [] then
        some ((atp.trackers.zip
          (effTierList 0 atp.tracker_tiers atp.trackers.length)).filterMap
            (fun p => if p.2 = τ then some p.1 else none))
      else none)) ∧
    (∀ e ∈ effTierList 0 atp.tracker_tiers atp.trackers.length, e ≤ 1024) := by
  have hpass : ∀ k, k = "announce" ∨ k = "announce-list" →
      lookupKey (write_resume_data atp) k = lookupKey (torrentFields atp) k := by
    rintro k (rfl | rfl) <;>
      exact resume_passthrough atp _ (by decide) (by decide) (by decide)
        (by decide) (by decide) (by decide) (by decide) (by decide) (by decide)
        (by decide) (by decide) (by decide) (by decide) (by decide) (by decide)
        (by decide) (by decide) (by decide)
  refine ⟨?_, ?_, resume_trackers_empty atp, trackerTierLists_getD atp,
    effTierList_le _ _ _ (by omega)⟩
  · intro tr h
    refine ⟨torrent_announce_single atp tr h,
      torrent_announcelist_single atp tr h, ?_, ?_,
      resume_trackers_single atp tr h⟩
    · rw [hpass _ (Or.inl rfl)]
      exact torrent_announce_single atp tr h
    · rw [hpass _ (Or.inr rfl)]
      exact torrent_announcelist_single atp tr h
  · intro h
    refine ⟨torrent_announce_multi atp h, torrent_announcelist_multi atp h,
      ?_, resume_trackers_multi atp h⟩
    rw [hpass _ (Or.inr rfl)]
    exact torrent_announcelist_multi atp h

/-- Witness: `C8_tracker_encoding` at one- and three-tracker inputs. -/
theorem C8_tracker_encoding_witness :
    (atpTr1.trackers = ["http://tr/a"] ∧
     lookupKey (write_torrent_file atpTr1) "announce"
        = some (.str (strB "http://tr/a")) ∧
     lookupKey (write_resume_data atpTr1) "trackers"
        = some (.list [.list [.str (strB "http://tr/a")]])) ∧
    (2 ≤ atpTr3.trackers.length ∧
     lookupKey (write_resume_data atpTr3) "trackers"
        = some (tiersToEntry (trackerTierLists atpTr3))) :=
  ⟨⟨rfl, ((C8_tracker_encoding atpTr1).1 "http://tr/a" rfl).1,
    ((C8_tracker_encoding atpTr1).1 "http://tr/a" rfl).2.2.2.2⟩,
   ⟨by decide, ((C8_tracker_encoding atpTr3).2.1 (by decide)).2.2.2⟩⟩

/-- Counterexample to C8 as stated: with trackers `a`, `b` both on
tier 2, `announce-list` is not a list of lists: `resize` leaves the
skipped tier 1 as a default-constructed undefined entry. -/
theorem C8_tracker_encoding_counterexample :
    lookupKey (write_torrent_file atpGap) "announce-list"
      = some (.list [.list [], .undef,
          .list [.str (strB "http://tr/a"), .str (strB "http://tr/b")]]) ∧
    Entry.isListOfLists (.list [.list [], .undef,
        .list [.str (strB "http://tr/a"), .str (strB "http://tr/b")]])
      = false :=
  ⟨rfl, rfl⟩

/-! ### Piece layers -/

theorem pieceLayerEntryFor_some_iff (atp : AddTorrentParams)
    (ti : TorrentInfoRec) (f : Nat) (h : atp.ti = some ti) :
    pieceLayerEntryFor atp f ≠ none ↔ pieceLayerGuard ti f := by
  by_cases hg : ti.files.pad_file_at f = false ∧
      ti.files.file_size f > ti.files.piece_length
  · simp [pieceLayerEntryFor, h, hg, pieceLayerGuard]
  · simp [pieceLayerEntryFor, h, hg, pieceLayerGuard]

theorem pieceLayerEntryFor_sparse (atp : AddTorrentParams)
    (ti : TorrentInfoRec) (f : Nat) (h : atp.ti = some ti)
    (hg : pieceLayerGuard ti f) (hm : atp.merkle_tree_mask.getD f [] ≠ []) :
    pieceLayerEntryFor atp f = some (ti.files.root_ptr f,
      ((MerkleTree.make (ti.files.file_num_blocks f)
          (ti.files.piece_length / default_block_size)
          (ti.files.root_ptr f)).load_sparse_tree
            (atp.merkle_trees.getD f [])
            (atp.merkle_tree_mask.getD f [])).get_piece_layer.flatten) := by
  obtain ⟨hg1, hg2⟩ := hg
  have hm' : atp.merkle_tree_mask[f]?.getD [] ≠ [] := by
    simpa [List.getD_eq_getElem?_getD] using hm
  simp [pieceLayerEntryFor, h, hg1, hg2, hm', MerkleTree.root,
    MerkleTree.load_sparse_tree, MerkleTree.make]

theorem pieceLayerEntryFor_dense (atp : AddTorrentParams)
    (ti : TorrentInfoRec) (f : Nat) (h : atp.ti = some ti)
    (hg : pieceLayerGuard ti f) (hm : atp.merkle_tree_mask.getD f [] = []) :
    pieceLayerEntryFor atp f = some (ti.files.root_ptr f,
      ((MerkleTree.make (ti.files.file_num_blocks f)
          (ti.files.piece_length / default_block_size)
          (ti.files.root_ptr f)).load_tree
            (atp.merkle_trees.getD f [])).get_piece_layer.flatten) := by
  obtain ⟨hg1, hg2⟩ := hg
  have hm' : atp.merkle_tree_mask[f]?.getD [] = [] := by
    simpa [List.getD_eq_getElem?_getD] using hm
  simp [pieceLayerEntryFor, h, hg1, hg2, hm', MerkleTree.root,
    MerkleTree.load_tree, MerkleTree.make]

theorem lookupBytes_addLayerBytes (d : List (List Nat × List Nat))
    (k : List Nat) (b : List Nat) (r : List Nat) :
    (lookupBytes (addLayerBytes d k b) r ≠ none) ↔
      (lookupBytes d r ≠ none ∨ r = k) := by
  induction d with
  | nil =>
      by_cases hrk : r = k
      · subst hrk; simp [addLayerBytes, lookupBytes]
      · simp [addLayerBytes, lookupBytes, hrk, Ne.symm hrk]
  | cons p rest ih =>
      obtain ⟨k', v⟩ := p
      by_cases h1 : k' = k
      · subst h1
        by_cases h2 : k' = r
        · subst h2; simp [addLayerBytes, lookupBytes]
        · simp [addLayerBytes, lookupBytes, h2, Ne.symm h2]
      · by_cases h2 : k' = r
        · subst h2; simp [addLayerBytes, lookupBytes, h1, ih]
        · simp [addLayerBytes, lookupBytes, h1, h2, Ne.symm h2, ih]

theorem foldl_layer_mem (atp : AddTorrentParams) (l : List Nat)
    (acc : List (List Nat × List Nat)) (r : List Nat) :
    (lookupBytes (l.foldl
      (fun acc f =>
        match pieceLayerEntryFor atp f with
        | some (k, v) => addLayerBytes acc k v
        | none => acc) acc) r ≠ none) ↔
      (lookupBytes acc r ≠ none ∨
        ∃ f ∈ l, ∃ v, pieceLayerEntryFor atp f = some (r, v)) := by
  induction l generalizing acc with
  | nil => simp
  | cons f₀ rest ih =>
      simp only [List.foldl_cons, ih, List.mem_cons]
      cases he : pieceLayerEntryFor atp f₀ with
      | none =>
          constructor
          · rintro (hx | hx)
            · exact Or.inl hx
            · exact Or.inr ⟨hx.choose, Or.inr hx.choose_spec.1, hx.choose_spec.2⟩
          · rintro (hx | ⟨f, hf, v, hv⟩)
            · exact Or.inl hx
            · rcases hf with rfl | hf
              · rw [he] at hv; cases hv
              · exact Or.inr ⟨f, hf, v, hv⟩
      | some kv =>
          obtain ⟨k, b⟩ := kv
          rw [lookupBytes_addLayerBytes]
          constructor
          · rintro ((hx | rfl) | hx)
            · exact Or.inl hx
            · exact Or.inr ⟨f₀, Or.inl rfl, b, he⟩
            · exact Or.inr ⟨hx.choose, Or.inr hx.choose_spec.1, hx.choose_spec.2⟩
          · rintro (hx | ⟨f, hf, v, hv⟩)
            · exact Or.inl (Or.inl hx)
            · rcases hf with rfl | hf
              · rw [he] at hv
                cases hv
                exact Or.inl (Or.inr rfl)
              · exact Or.inr ⟨f, hf, v, hv⟩

/-- C9: a file contributes to `piece layers` iff it is no pad file and
strictly larger than one piece; the tree is rebuilt with
`load_sparse_tree` when a non-empty mask is present and `load_tree`
otherwise; the accumulated dictionary holds a root iff some file
contributes it. -/
theorem C9_piece_layers (atp : AddTorrentParams) (ti : TorrentInfoRec)
    (h : atp.ti = some ti) :
    (∀ f, pieceLayerEntryFor atp f ≠ none ↔ pieceLayerGuard ti f) ∧
    (∀ f, pieceLayerGuard ti f →
      (atp.merkle_tree_mask.getD f [] ≠ [] →
        pieceLayerEntryFor atp f = some (ti.files.root_ptr f,
          ((MerkleTree.make (ti.files.file_num_blocks f)
              (ti.files.piece_length / default_block_size)
              (ti.files.root_ptr f)).load_sparse_tree
                (atp.merkle_trees.getD f [])
                (atp.merkle_tree_mask.getD f [])).get_piece_layer.flatten)) ∧
      (atp.merkle_tree_mask.getD f [] = [] →
        pieceLayerEntryFor atp f = some (ti.files.root_ptr f,
          ((MerkleTree.make (ti.files.file_num_blocks f)
              (ti.files.piece_length / default_block_size)
              (ti.files.root_ptr f)).load_tree
                (atp.merkle_trees.getD f [])).get_piece_layer.flatten))) ∧
    (∀ r, lookupBytes (pieceLayersList atp) r ≠ none ↔
      ∃ f, f ∈ List.range atp.merkle_trees.length ∧
        ∃ v, pieceLayerEntryFor atp f = some (r, v)) := by
  refine ⟨fun f => pieceLayerEntryFor_some_iff atp ti f h,
    fun f hg => ⟨pieceLayerEntryFor_sparse atp ti f h hg,
      pieceLayerEntryFor_dense atp ti f h hg⟩, fun r => ?_⟩
  unfold pieceLayersList
  rw [foldl_layer_mem]
  simp [lookupBytes]

/-- Witness: `C9_piece_layers` at the one-file merkle input (dense
tree, file of two pieces). -/
theorem C9_piece_layers_witness :
    atpMerkle.ti = some tiMerkle ∧ pieceLayerGuard tiMerkle 0 ∧
    pieceLayerEntryFor atpMerkle 0 ≠ none :=
  ⟨rfl, by decide,
   ((C9_piece_layers atpMerkle tiMerkle rfl).1 0).mpr (by decide)⟩

/-! ### Mode agreement -/

theorem rfWebEmpty_preserve (atp : AddTorrentParams) (d : Dict) (k : String)
    (v : Entry) (h : lookupKey d k = some v) :
    lookupKey (rfWebEmpty atp d) k = some v := by
  have hin : lookupKey (if atp.url_seeds = [] then ensureList d "url-list" else d) k
      = some v := by
    split
    · exact lookup_ensureList_preserve _ _ _ _ h
    · exact h
  show lookupKey (if atp.http_seeds = [] then ensureList _ "httpseeds" else _) k = _
  split
  · exact lookup_ensureList_preserve _ _ _ _ hin
  · exact hin

theorem resume_urllist_preserve (atp : AddTorrentParams) (v : Entry)
    (h : lookupKey (torrentFields atp) "url-list" = some v) :
    lookupKey (write_resume_data atp) "url-list" = some v := by
  show lookupKey (resumeFields atp (torrentFields atp)) _ = _
  rw [resumeFields_to_scalars atp _ _ (by decide) (by decide) (by decide)
    (by decide) (by decide) (by decide) (by decide) (by decide) (by decide)
    (by decide) (by decide) (by decide) (by decide),
    rfScalars_ne _ _ _ (by decide)]
  refine rfWebEmpty_preserve atp _ _ v ?_
  rw [rfTrackersDup_ne _ _ _ (by decide), rfTrees_ne _ _ _ (by decide)]
  exact h

theorem resume_httpseeds_preserve (atp : AddTorrentParams) (v : Entry)
    (h : lookupKey (torrentFields atp) "httpseeds" = some v) :
    lookupKey (write_resume_data atp) "httpseeds" = some v := by
  show lookupKey (resumeFields atp (torrentFields atp)) _ = _
  rw [resumeFields_to_scalars atp _ _ (by decide) (by decide) (by decide)
    (by decide) (by decide) (by decide) (by decide) (by decide) (by decide)
    (by decide) (by decide) (by decide) (by decide),
    rfScalars_ne _ _ _ (by decide)]
  refine rfWebEmpty_preserve atp _ _ v ?_
  rw [rfTrackersDup_ne _ _ _ (by decide), rfTrees_ne _ _ _ (by decide)]
  exact h

/-- C10 (amended): every key of the `.torrent`-mode output appears
with an identical value in the resume-mode output — the torrent-only
dictionary is contained in the resume dictionary.  The containment is
not an equality of the restriction to the `.torrent` key set: resume
mode additionally emits `url-list`/`httpseeds` as empty lists when
those collections are empty, which the torrent-only mode omits. -/
theorem C10_mode_agreement (atp : AddTorrentParams) (k : String) (v : Entry)
    (h : lookupKey (write_torrent_file atp) k = some v) :
    lookupKey (write_resume_data atp) k = some v := by
  have htf : lookupKey (torrentFields atp) k = some v := h
  by_cases hk : k ∈ torrentKeys
  · simp only [torrentKeys, List.mem_cons, List.not_mem_nil, or_false] at hk
    rcases hk with rfl | rfl | rfl | rfl | rfl | rfl | rfl | rfl | rfl | rfl
    all_goals first
      | exact resume_urllist_preserve atp v htf
      | exact resume_httpseeds_preserve atp v htf
      | (rw [resume_passthrough atp _ (by decide) (by decide) (by decide)
          (by decide) (by decide) (by decide) (by decide) (by decide)
          (by decide) (by decide) (by decide) (by decide) (by decide)
          (by decide) (by decide) (by decide) (by decide) (by decide)]
         exact htf)
  · rw [torrentFields_lookup_none atp k hk] at htf
    cases htf

/-- Witness: `C10_mode_agreement` on the `name` key of a named input. -/
theorem C10_mode_agreement_witness :
    lookupKey (write_torrent_file atpName) "name" = some (.str (strB "n")) ∧
    lookupKey (write_resume_data atpName) "name" = some (.str (strB "n")) :=
  ⟨rfl, C10_mode_agreement atpName "name" (.str (strB "n")) rfl⟩

/-- Counterexample to C10 as stated: `url-list` belongs to the
`.torrent` field set and the resume output of an all-empty input maps
it to an empty list, yet the torrent-only output omits it — so the
torrent-only output is not the resume output restricted to the
`.torrent` field set. -/
theorem C10_mode_agreement_counterexample :
    "url-list" ∈ torrentKeys ∧
    lookupKey (write_resume_data atp0) "url-list" = some (.list []) ∧
    lookupKey (write_torrent_file atp0) "url-list" = none :=
  ⟨by decide, resume_urllist_empty atp0 rfl, rfl⟩

/-- Witness: `C7_presence_rules` applied to the all-empty parameters. -/
theorem C7_presence_rules_witness :
    atp0.url_seeds = [] ∧ atp0.trackers = [] ∧ atp0.unfinished_pieces = [] ∧
    lookupKey (write_resume_data atp0) "url-list" = some (.list []) ∧
    lookupKey (write_resume_data atp0) "trackers" = some (.list []) ∧
    lookupKey (write_resume_data atp0) "unfinished" = none :=
  ⟨rfl, rfl, rfl, (C7_presence_rules atp0).1 rfl,
   (C7_presence_rules atp0).2.2.1 rfl, (C7_presence_rules atp0).2.2.2.1 rfl⟩

/-! ### Scheduler: concrete scenario runs -/

/-- C1: ten idle auto-managed downloaders added paused under
`active_downloads = 1`: with `dont_count_slow_torrents = true` all ten
are resumed (ten `torrent_resumed` alerts) and end auto-managed and
unpaused; with `dont_count_slow_torrents = false` exactly one resume is
emitted and exactly one torrent ends unpaused. -/
theorem C1_slow_torrent_accounting :
    countResumed (runTicks (scenarioSlow true) (tickTimes 12)).alerts = 10 ∧
    (∀ t ∈ (runTicks (scenarioSlow true) (tickTimes 12)).torrents,
      t.auto_managed = true ∧ t.paused = false) ∧
    countResumed (runTicks (scenarioSlow false) (tickTimes 12)).alerts = 1 ∧
    numUnpaused (runTicks (scenarioSlow false) (tickTimes 12)).torrents = 1 ∧
    (∀ t ∈ (runTicks (scenarioSlow false) (tickTimes 12)).torrents,
      t.auto_managed = true) := by
  decide

/-! ### Scheduler: pacing -/

theorem resumeTimes_append (a b : List Alert) :
    resumeTimes (a ++ b) = resumeTimes a ++ resumeTimes b := by
  simp [resumeTimes, List.filterMap_append]

theorem countResumed_eq_length (al : List Alert) :
    countResumed al = (resumeTimes al).length := by
  induction al with
  | nil => rfl
  | cons a rest ih =>
      cases a <;>
        simp [countResumed, resumeTimes, List.countP_cons, List.filterMap_cons] <;>
        simp [countResumed, resumeTimes] at ih <;> omega

theorem completeChecksGo_alerts_shape (now : Nat) (i0 : Nat) (ts : List Torrent) :
    ∀ a ∈ (completeChecksGo now i0 ts).2.1, ∃ j p c, a = .state_changed j now p c := by
  induction ts generalizing i0 with
  | nil => intro a ha; cases ha
  | cons t rest ih =>
      intro a ha
      simp only [completeChecksGo] at ha
      split at ha
      · rcases List.mem_cons.mp ha with rfl | ha'
        · exact ⟨i0, _, _, rfl⟩
        · exact ih (i0 + 1) a ha'
      · exact ih (i0 + 1) a ha

theorem announcesFor_mem (now : Nat) (ts : List Torrent) (idxs : List Nat)
    (a : Alert) (ha : a ∈ announcesFor now ts idxs) :
    ∃ i, i ∈ idxs ∧ a = .tracker_announce i now ∧
      (ts.getD i default).paused = false ∧ (ts.getD i default).checked = true ∧
      (ts.getD i default).has_tracker = true := by
  unfold announcesFor at ha
  rcases List.mem_filterMap.mp ha with ⟨i, hi, hf⟩
  by_cases hcond : (ts.getD i default).paused = false ∧
      (ts.getD i default).checked = true ∧ (ts.getD i default).has_tracker = true
  · rw [if_pos hcond] at hf
    cases hf
    exact ⟨i, hi, rfl, hcond.1, hcond.2.1, hcond.2.2⟩
  · rw [if_neg hcond] at hf
    cases hf

theorem resumeTimes_eq_nil (al : List Alert)
    (h : ∀ a ∈ al, ∀ i τ, a ≠ .torrent_resumed i τ) : resumeTimes al = [] := by
  induction al with
  | nil => rfl
  | cons a rest ih =>
      have hrest := ih (fun a ha => h a (List.mem_cons_of_mem _ ha))
      cases a with
      | torrent_resumed i τ => exact absurd rfl (h _ (List.mem_cons_self _ _) i τ)
      | torrent_paused i τ => simpa [resumeTimes, List.filterMap_cons] using hrest
      | state_changed i τ p c => simpa [resumeTimes, List.filterMap_cons] using hrest
      | tracker_announce i τ => simpa [resumeTimes, List.filterMap_cons] using hrest

theorem completeChecksGo_resumeTimes (now i0 : Nat) (ts : List Torrent) :
    resumeTimes (completeChecksGo now i0 ts).2.1 = [] := by
  refine resumeTimes_eq_nil _ (fun a ha i τ hne => ?_)
  obtain ⟨j, p, c, rfl⟩ := completeChecksGo_alerts_shape now i0 ts a ha
  cases hne

theorem completeChecks_resumeTimes (now : Nat) (ts : List Torrent) :
    resumeTimes (completeChecks now ts).2.1 = [] := by
  unfold completeChecks
  exact completeChecksGo_resumeTimes now 0 ts

theorem announcesFor_resumeTimes (now : Nat) (ts : List Torrent)
    (idxs : List Nat) : resumeTimes (announcesFor now ts idxs) = [] := by
  refine resumeTimes_eq_nil _ (fun a ha i τ hne => ?_)
  obtain ⟨j, _, rfl, _⟩ := announcesFor_mem now ts idxs a ha
  cases hne

theorem diffStep_resume (now : Nat) (acc : DiffAcc) (p : Nat × Bool)
    (hc : p.2 = true ∧ (acc.torrents.getD p.1 default).paused = true)
    (hp : pacingOK now acc.last_admission = true) :
    diffStep now acc p =
      { torrents := acc.torrents.set p.1
          { acc.torrents.getD p.1 default with paused := false },
        last_admission := some now,
        alerts := acc.alerts ++ [.torrent_resumed p.1 now],
        resumed := acc.resumed ++ [p.1] } := by
  unfold diffStep
  rw [if_pos hc, if_pos hp]

theorem diffStep_defer (now : Nat) (acc : DiffAcc) (p : Nat × Bool)
    (hc : p.2 = true ∧ (acc.torrents.getD p.1 default).paused = true)
    (hp : pacingOK now acc.last_admission = false) :
    diffStep now acc p = acc := by
  unfold diffStep
  rw [if_pos hc, if_neg (by simp [hp])]

theorem diffStep_pause (now : Nat) (acc : DiffAcc) (p : Nat × Bool)
    (hc : ¬ (p.2 = true ∧ (acc.torrents.getD p.1 default).paused = true))
    (hc2 : p.2 = false ∧ (acc.torrents.getD p.1 default).paused = false) :
    diffStep now acc p =
      { acc with
        torrents := acc.torrents.set p.1
          { acc.torrents.getD p.1 default with paused := true },
        alerts := acc.alerts ++ [.torrent_paused p.1 now] } := by
  unfold diffStep
  rw [if_neg hc, if_pos hc2]

theorem diffStep_skip (now : Nat) (acc : DiffAcc) (p : Nat × Bool)
    (hc : ¬ (p.2 = true ∧ (acc.torrents.getD p.1 default).paused = true))
    (hc2 : ¬ (p.2 = false ∧ (acc.torrents.getD p.1 default).paused = false)) :
    diffStep now acc p = acc := by
  unfold diffStep
  rw [if_neg hc, if_neg hc2]

theorem pacingOK_self_false (now : Nat) : pacingOK now (some now) = false := by
  simp only [pacingOK, decide_eq_false_iff_not]
  omega

/-- One diff step either leaves the admission clock and the resume
trace unchanged, or (when pacing allowed it) adds exactly one resume at
`now` and sets the clock to `now`. -/
theorem diffStep_cases (now : Nat) (acc : DiffAcc) (p : Nat × Bool) :
    ((diffStep now acc p).last_admission = acc.last_admission ∧
      resumeTimes (diffStep now acc p).alerts = resumeTimes acc.alerts) ∨
    (pacingOK now acc.last_admission = true ∧
      (diffStep now acc p).last_admission = some now ∧
      resumeTimes (diffStep now acc p).alerts
        = resumeTimes acc.alerts ++ [now]) := by
  by_cases hc : p.2 = true ∧ (acc.torrents.getD p.1 default).paused = true
  · by_cases hp : pacingOK now acc.last_admission = true
    · right
      rw [diffStep_resume now acc p hc hp]
      refine ⟨hp, rfl, ?_⟩
      show resumeTimes (acc.alerts ++ [.torrent_resumed p.1 now]) = _
      rw [resumeTimes_append]
      simp [resumeTimes]
    · left
      rw [diffStep_defer now acc p hc (by simpa using hp)]
      exact ⟨rfl, rfl⟩
  · by_cases hc2 : p.2 = false ∧ (acc.torrents.getD p.1 default).paused = false
    · left
      rw [diffStep_pause now acc p hc hc2]
      refine ⟨rfl, ?_⟩
      show resumeTimes (acc.alerts ++ [.torrent_paused p.1 now]) = _
      rw [resumeTimes_append]
      simp [resumeTimes]
    · left
      rw [diffStep_skip now acc p hc hc2]
      exact ⟨rfl, rfl⟩

/-- Once the admission clock reads `now`, no further step of the same
tick can resume anything. -/
theorem diffStep_last_some (now : Nat) (acc : DiffAcc) (p : Nat × Bool)
    (h : acc.last_admission = some now) :
    (diffStep now acc p).last_admission = some now ∧
    resumeTimes (diffStep now acc p).alerts = resumeTimes acc.alerts := by
  rcases diffStep_cases now acc p with ⟨h1, h2⟩ | ⟨hp, h1, h2⟩
  · exact ⟨h1.trans h, h2⟩
  · rw [h, pacingOK_self_false] at hp
    cases hp

theorem diff_stall (now : Nat) (pairs : List (Nat × Bool)) :
    ∀ acc : DiffAcc, acc.last_admission = some now →
      ((pairs.foldl (diffStep now) acc).last_admission = some now) ∧
      resumeTimes (pairs.foldl (diffStep now) acc).alerts
        = resumeTimes acc.alerts := by
  induction pairs with
  | nil => exact fun acc h => ⟨h, rfl⟩
  | cons p ps ih =>
      intro acc h
      simp only [List.foldl_cons]
      obtain ⟨hs1, hs2⟩ := diffStep_last_some now acc p h
      obtain ⟨h1, h2⟩ := ih (diffStep now acc p) hs1
      exact ⟨h1, h2.trans hs2⟩

theorem diff_progress (now : Nat) (pairs : List (Nat × Bool)) :
    ∀ acc : DiffAcc,
      ((pairs.foldl (diffStep now) acc).last_admission = acc.last_admission ∧
        resumeTimes (pairs.foldl (diffStep now) acc).alerts
          = resumeTimes acc.alerts) ∨
      (pacingOK now acc.last_admission = true ∧
        (pairs.foldl (diffStep now) acc).last_admission = some now ∧
        resumeTimes (pairs.foldl (diffStep now) acc).alerts
          = resumeTimes acc.alerts ++ [now]) := by
  induction pairs with
  | nil => exact fun acc => Or.inl ⟨rfl, rfl⟩
  | cons p ps ih =>
      intro acc
      simp only [List.foldl_cons]
      rcases diffStep_cases now acc p with ⟨l1, l2⟩ | ⟨hp, r1, r2⟩
      · rcases ih (diffStep now acc p) with ⟨h1, h2⟩ | ⟨hp, h1, h2⟩
        · exact Or.inl ⟨h1.trans l1, h2.trans l2⟩
        · rw [l1] at hp
          right
          exact ⟨hp, h1, by rw [h2, l2]⟩
      · obtain ⟨h1, h2⟩ := diff_stall now ps (diffStep now acc p) r1
        right
        exact ⟨hp, h1, by rw [h2, r2]⟩

theorem tick_resume_decomp (st : SessionState) (now : Nat) :
    ((tick now st).last_admission = st.last_admission ∧
      resumeTimes (tick now st).alerts = resumeTimes st.alerts) ∨
    (pacingOK now st.last_admission = true ∧
      (tick now st).last_admission = some now ∧
      resumeTimes (tick now st).alerts = resumeTimes st.alerts ++ [now]) := by
  rcases diff_progress now
      (computeDesired st.settings (completeChecks now st.torrents).1)
      ⟨(completeChecks now st.torrents).1, st.last_admission, [], []⟩
    with ⟨h1, h2⟩ | ⟨hp, h1, h2⟩
  · left
    refine ⟨h1, ?_⟩
    show resumeTimes (st.alerts ++ _) = _
    rw [resumeTimes_append, resumeTimes_append, resumeTimes_append,
      completeChecks_resumeTimes, announcesFor_resumeTimes, h2]
    simp [resumeTimes]
  · right
    refine ⟨hp, h1, ?_⟩
    show resumeTimes (st.alerts ++ _) = _
    rw [resumeTimes_append, resumeTimes_append, resumeTimes_append,
      completeChecks_resumeTimes, announcesFor_resumeTimes, h2]
    simp [resumeTimes]

theorem pacingOK_some_iff (now L : Nat) :
    pacingOK now (some L) = true ↔ L + 60 ≤ now := by
  simp [pacingOK]

theorem tick_inv (st : SessionState) (now : Nat) (h : schedInv st) :
    schedInv (tick now st) := by
  obtain ⟨hpw, hub⟩ := h
  rcases tick_resume_decomp st now with ⟨h1, h2⟩ | ⟨hp, h1, h2⟩
  · refine ⟨by rw [h2]; exact hpw, fun x hx => ?_⟩
    rw [h2] at hx
    obtain ⟨L, hL, hxL⟩ := hub x hx
    exact ⟨L, by rw [h1]; exact hL, hxL⟩
  · constructor
    · rw [h2, List.pairwise_append]
      refine ⟨hpw, List.pairwise_singleton _ _, ?_⟩
      intro a ha b hb
      rw [List.mem_singleton] at hb
      subst hb
      obtain ⟨L, hL, haL⟩ := hub a ha
      rw [hL, pacingOK_some_iff] at hp
      omega
    · intro x hx
      rw [h2] at hx
      rcases List.mem_append.mp hx with hx | hx
      · obtain ⟨L, hL, haL⟩ := hub x hx
        rw [hL, pacingOK_some_iff] at hp
        exact ⟨now, h1, by omega⟩
      · rw [List.mem_singleton] at hx
        exact ⟨now, h1, le_of_eq hx⟩

theorem runTicks_inv (times : List Nat) :
    ∀ st : SessionState, schedInv st → schedInv (runTicks st times) := by
  induction times with
  | nil => exact fun st h => h
  | cons τ rest ih => exact fun st h => ih _ (tick_inv st τ h)

/-- C2: successive `torrent_resumed` alerts of a fresh session are
always at least 60 seconds apart (the pacing invariant is global, so it
holds within every queue class in particular), and a single tick
resumes at most one torrent. -/
theorem C2_pacing (ts0 : List Torrent) (sett : Settings) (times : List Nat) :
    List.Pairwise (fun a b => a + 60 ≤ b)
      (resumeTimes (runTicks ⟨ts0, sett, [], none⟩ times).alerts) ∧
    (∀ st now, countResumed ((tick now st).alerts.drop st.alerts.length) ≤ 1) := by
  constructor
  · exact (runTicks_inv times ⟨ts0, sett, [], none⟩
      ⟨List.Pairwise.nil, by intro x hx; cases hx⟩).1
  · intro st now
    show countResumed ((st.alerts ++ _).drop st.alerts.length) ≤ 1
    rw [List.drop_left, countResumed_eq_length, resumeTimes_append,
      resumeTimes_append, completeChecks_resumeTimes, announcesFor_resumeTimes]
    rcases diff_progress now
        (computeDesired st.settings (completeChecks now st.torrents).1)
        ⟨(completeChecks now st.torrents).1, st.last_admission, [], []⟩
      with ⟨_, h2⟩ | ⟨_, _, h2⟩ <;> rw [h2] <;> simp [resumeTimes]

/-! ### Scheduler: force states -/

theorem completeFn_paused (t : Torrent) : (completeFn t).paused = t.paused := by
  unfold completeFn
  split <;> rfl

theorem completeFn_auto (t : Torrent) :
    (completeFn t).auto_managed = t.auto_managed := by
  unfold completeFn
  split <;> rfl

theorem completeChecksGo_torrents (now i0 : Nat) (ts : List Torrent) :
    (completeChecksGo now i0 ts).1 = ts.map completeFn := by
  induction ts generalizing i0 with
  | nil => rfl
  | cons t rest ih =>
      by_cases hc : t.paused = false ∧ t.checked = false <;>
        simp [completeChecksGo, ih, completeFn, hc]

theorem completeChecks_torrents (now : Nat) (ts : List Torrent) :
    (completeChecks now ts).1 = ts.map completeFn := by
  unfold completeChecks
  exact completeChecksGo_torrents now 0 ts

theorem computeDesiredGo_fst (sett : Settings) (ts : List Torrent) :
    ∀ (l : List Nat) (c : SlotCount) (p : Nat × Bool),
      p ∈ computeDesiredGo sett ts l c → p.1 ∈ l := by
  intro l
  induction l with
  | nil => intro c p hp; cases hp
  | cons i is ih =>
      intro c p hp
      simp only [computeDesiredGo, List.mem_cons] at hp
      rcases hp with rfl | hp
      · exact List.mem_cons_self _ _
      · exact List.mem_cons_of_mem _ (ih _ p hp)

theorem classOrder_auto (ts : List Torrent) (i : Nat) (h : i ∈ classOrder ts) :
    (ts.getD i default).auto_managed = true := by
  simp only [classOrder, List.mem_append, List.mem_filter, List.mem_range] at h
  rcases h with (⟨⟨_, ha⟩, _⟩ | ⟨⟨_, ha⟩, _⟩) | ⟨⟨_, ha⟩, _⟩ <;> exact ha

theorem diffStep_torrents_other (now : Nat) (acc : DiffAcc) (p : Nat × Bool)
    (i : Nat) (h : p.1 ≠ i) :
    (diffStep now acc p).torrents[i]? = acc.torrents[i]? := by
  unfold diffStep
  split
  · split
    · exact List.getElem?_set_ne h
    · rfl
  · split
    · exact List.getElem?_set_ne h
    · rfl

theorem diff_foldl_torrents_other (now : Nat) (pairs : List (Nat × Bool)) :
    ∀ (acc : DiffAcc) (i : Nat), (∀ p ∈ pairs, p.1 ≠ i) →
      (pairs.foldl (diffStep now) acc).torrents[i]? = acc.torrents[i]? := by
  induction pairs with
  | nil => exact fun acc i _ => rfl
  | cons p ps ih =>
      intro acc i h
      simp only [List.foldl_cons]
      rw [ih _ i (fun q hq => h q (List.mem_cons_of_mem _ hq)),
        diffStep_torrents_other now acc p i (h p (List.mem_cons_self _ _))]

theorem diffStep_alerts_sub (now : Nat) (acc : DiffAcc) (p : Nat × Bool) :
    ∀ a ∈ (diffStep now acc p).alerts,
      a ∈ acc.alerts ∨ ∃ τ, a = .torrent_resumed p.1 τ ∨ a = .torrent_paused p.1 τ := by
  intro a ha
  unfold diffStep at ha
  split at ha
  · split at ha
    · rcases List.mem_append.mp ha with h | h
      · exact Or.inl h
      · rw [List.mem_singleton] at h
        exact Or.inr ⟨now, Or.inl h⟩
    · exact Or.inl ha
  · split at ha
    · rcases List.mem_append.mp ha with h | h
      · exact Or.inl h
      · rw [List.mem_singleton] at h
        exact Or.inr ⟨now, Or.inr h⟩
    · exact Or.inl ha

theorem diff_foldl_alerts (now : Nat) (pairs : List (Nat × Bool)) :
    ∀ (acc : DiffAcc) (a : Alert), a ∈ (pairs.foldl (diffStep now) acc).alerts →
      a ∈ acc.alerts ∨
        ∃ p ∈ pairs, ∃ τ, a = .torrent_resumed p.1 τ ∨ a = .torrent_paused p.1 τ := by
  induction pairs with
  | nil => exact fun acc a ha => Or.inl ha
  | cons p ps ih =>
      intro acc a ha
      simp only [List.foldl_cons] at ha
      rcases ih _ a ha with h | ⟨q, hq, τ, hcmd⟩
      · rcases diffStep_alerts_sub now acc p a h with h' | ⟨τ, hcmd⟩
        · exact Or.inl h'
        · exact Or.inr ⟨p, List.mem_cons_self _ _, τ, hcmd⟩
      · exact Or.inr ⟨q, List.mem_cons_of_mem _ hq, τ, hcmd⟩

/-- A torrent that is not auto-managed is skipped by the diff pass. -/
theorem pairs_ne_nonauto (st : SessionState) (now i : Nat) (t : Torrent)
    (hget : st.torrents[i]? = some t) (hna : t.auto_managed = false) :
    ∀ p ∈ computeDesired st.settings (completeChecks now st.torrents).1,
      p.1 ≠ i := by
  intro p hp heq
  have h1 : p.1 ∈ classOrder (completeChecks now st.torrents).1 :=
    computeDesiredGo_fst st.settings _ _ _ p hp
  have h2 := classOrder_auto _ _ h1
  rw [heq, completeChecks_torrents, List.getD_eq_getElem?_getD,
    List.getElem?_map, hget] at h2
  simp [completeFn_auto, hna] at h2

theorem tick_nonauto_torrent (st : SessionState) (now i : Nat) (t : Torrent)
    (hget : st.torrents[i]? = some t) (hna : t.auto_managed = false) :
    (tick now st).torrents[i]? = some (completeFn t) := by
  show (List.foldl (diffStep now) _ _).torrents[i]? = _
  rw [diff_foldl_torrents_other now _ _ i (pairs_ne_nonauto st now i t hget hna)]
  show (completeChecks now st.torrents).1[i]? = _
  rw [completeChecks_torrents, List.getElem?_map, hget]
  rfl

theorem tick_nonauto_alerts (st : SessionState) (now i : Nat) (t : Torrent)
    (hget : st.torrents[i]? = some t) (hna : t.auto_managed = false) :
    ∀ a ∈ (tick now st).alerts, a ∈ st.alerts ∨ a.isCmdOn i = false := by
  intro a ha
  have ha' : a ∈ st.alerts ++ ((completeChecks now st.torrents).2.1 ++
      (((computeDesired st.settings (completeChecks now st.torrents).1).foldl
          (diffStep now)
          ⟨(completeChecks now st.torrents).1, st.last_admission, [], []⟩).alerts ++
        announcesFor now
          ((computeDesired st.settings (completeChecks now st.torrents).1).foldl
            (diffStep now)
            ⟨(completeChecks now st.torrents).1, st.last_admission, [], []⟩).torrents
          ((completeChecks now st.torrents).2.2 ++
            ((computeDesired st.settings (completeChecks now st.torrents).1).foldl
              (diffStep now)
              ⟨(completeChecks now st.torrents).1, st.last_admission, [], []⟩).resumed))) := ha
  rcases List.mem_append.mp ha' with h | h
  · exact Or.inl h
  rcases List.mem_append.mp h with h | h
  · obtain ⟨j, p, c, rfl⟩ := completeChecksGo_alerts_shape now 0 st.torrents a h
    exact Or.inr rfl
  rcases List.mem_append.mp h with h | h
  · rcases diff_foldl_alerts now _ _ a h with h' | ⟨p, hp, τ, hcmd⟩
    · cases h'
    · have hne := pairs_ne_nonauto st now i t hget hna p hp
      rcases hcmd with rfl | rfl <;>
        · right
          simp [Alert.isCmdOn, hne]
  · obtain ⟨j, _, rfl, _⟩ := announcesFor_mem _ _ _ a h
    exact Or.inr rfl

theorem runTicks_nonauto_torrent (times : List Nat) :
    ∀ (st : SessionState) (i : Nat) (t : Torrent),
      st.torrents[i]? = some t → t.auto_managed = false →
      ∃ t', (runTicks st times).torrents[i]? = some t' ∧
        t'.paused = t.paused ∧ t'.auto_managed = false := by
  induction times with
  | nil => exact fun st i t hget hna => ⟨t, hget, rfl, hna⟩
  | cons τ rest ih =>
      intro st i t hget hna
      obtain ⟨t', hget', hp', ha'⟩ := ih (tick τ st) i (completeFn t)
        (tick_nonauto_torrent st τ i t hget hna)
        (by rw [completeFn_auto]; exact hna)
      exact ⟨t', hget', by rw [hp', completeFn_paused], ha'⟩

theorem runTicks_nonauto_alerts (times : List Nat) :
    ∀ (st : SessionState) (i : Nat) (t : Torrent),
      st.torrents[i]? = some t → t.auto_managed = false →
      ∀ a ∈ (runTicks st times).alerts, a ∈ st.alerts ∨ a.isCmdOn i = false := by
  induction times with
  | nil => exact fun st i t _ _ a ha => Or.inl ha
  | cons τ rest ih =>
      intro st i t hget hna a ha
      rcases ih (tick τ st) i (completeFn t)
          (tick_nonauto_torrent st τ i t hget hna)
          (by rw [completeFn_auto]; exact hna) a ha with h | h
      · exact tick_nonauto_alerts st τ i t hget hna a h
      · exact Or.inr h

/-- C3: the scheduler never issues a command on a torrent with
`auto_managed = false` (its paused flag survives any run, and every
resume/pause alert concerns some other torrent); consequently the
force-stopped and force-started scenarios emit no resume/pause alert at
all and leave every torrent's flags unchanged. -/
theorem C3_force_states :
    (∀ (st : SessionState) (times : List Nat) (i : Nat) (t : Torrent),
      st.torrents[i]? = some t → t.auto_managed = false →
      (∃ t', (runTicks st times).torrents[i]? = some t' ∧
        t'.paused = t.paused ∧ t'.auto_managed = false) ∧
      (∀ a ∈ (runTicks st times).alerts, a ∈ st.alerts ∨ a.isCmdOn i = false)) ∧
    ((runTicks scenarioForceStopped (tickTimes 12)).alerts.all
        (fun a => !a.isCmd) = true ∧
      ∀ t ∈ (runTicks scenarioForceStopped (tickTimes 12)).torrents,
        t.auto_managed = false ∧ t.paused = true) ∧
    ((runTicks scenarioForceStarted (tickTimes 12)).alerts.all
        (fun a => !a.isCmd) = true ∧
      ∀ t ∈ (runTicks scenarioForceStarted (tickTimes 12)).torrents,
        t.auto_managed = false ∧ t.paused = false) := by
  refine ⟨fun st times i t hget hna =>
    ⟨runTicks_nonauto_torrent times st i t hget hna,
     runTicks_nonauto_alerts times st i t hget hna⟩, ?_, ?_⟩ <;> exact (by decide)

/-- Witness: `C3_force_states` on the force-stopped scenario's first
torrent. -/
theorem C3_force_states_witness :
    scenarioForceStopped.torrents[0]? = some (idleDownloader false true) ∧
    (idleDownloader false true).auto_managed = false ∧
    ∃ t', (runTicks scenarioForceStopped (tickTimes 12)).torrents[0]?
        = some t' ∧ t'.paused = (idleDownloader false true).paused ∧
      t'.auto_managed = false :=
  ⟨by decide, by decide,
   (C3_force_states.1 scenarioForceStopped (tickTimes 12) 0
     (idleDownloader false true) (by decide) (by decide)).1⟩

/-! ### Scheduler: checking torrents never announce -/

theorem lifecycle_ne_checking (t : Torrent) (h : t.checked = true) :
    t.lifecycle ≠ .checking := by
  unfold Torrent.lifecycle
  rw [h]
  simp only [Bool.true_eq_false, if_false]
  split <;> intro hx <;> cases hx

theorem default_torrent_no_tracker : (default : Torrent).has_tracker = false := rfl

/-- Every announce a tick emits names a torrent that is, after the
tick, checked (so not in a checking lifecycle state) and started: a
checking torrent never announces, and a torrent parked straight out of
its check does not either. -/
theorem tick_announce_active (st : SessionState) (now i τ : Nat)
    (h : Alert.tracker_announce i τ ∈
      (tick now st).alerts.drop st.alerts.length) :
    ∃ t, (tick now st).torrents[i]? = some t ∧ t.checked = true ∧
      t.paused = false ∧ t.lifecycle ≠ .checking := by
  have h' : Alert.tracker_announce i τ ∈
      (st.alerts ++ ((completeChecks now st.torrents).2.1 ++
        (((computeDesired st.settings (completeChecks now st.torrents).1).foldl
            (diffStep now)
            ⟨(completeChecks now st.torrents).1, st.last_admission, [], []⟩).alerts ++
          announcesFor now
            ((computeDesired st.settings (completeChecks now st.torrents).1).foldl
              (diffStep now)
              ⟨(completeChecks now st.torrents).1, st.last_admission, [], []⟩).torrents
            ((completeChecks now st.torrents).2.2 ++
              ((computeDesired st.settings (completeChecks now st.torrents).1).foldl
                (diffStep now)
                ⟨(completeChecks now st.torrents).1, st.last_admission, [], []⟩).resumed)))).drop
        st.alerts.length := h
  rw [List.drop_left] at h'
  rcases List.mem_append.mp h' with hm | hm
  · obtain ⟨j, p, c, heq⟩ := completeChecksGo_alerts_shape now 0 st.torrents _ hm
    cases heq
  rcases List.mem_append.mp hm with hm | hm
  · rcases diff_foldl_alerts now _ _ _ hm with h0 | ⟨p, _, τ', hcmd⟩
    · cases h0
    · rcases hcmd with heq | heq <;> cases heq
  · obtain ⟨j, _, heq, hpa, hck, htr⟩ := announcesFor_mem _ _ _ _ hm
    cases heq
    set tl := ((computeDesired st.settings (completeChecks now st.torrents).1).foldl
      (diffStep now)
      ⟨(completeChecks now st.torrents).1, st.last_admission, [], []⟩).torrents with htl
    by_cases hi : i < tl.length
    · refine ⟨tl.getD i default, ?_, hck, hpa, lifecycle_ne_checking _ hck⟩
      show tl[i]? = _
      rw [List.getD_eq_getElem?_getD, List.getElem?_eq_getElem hi]
      rfl
    · rw [List.getD_eq_default _ _ (by omega)] at htr
      rw [default_torrent_no_tracker] at htr
      cases htr

/-- C4: checking torrents never announce (any announce names a torrent
that is checked and active after the tick), and the ten-seed scenario
with one tracker each and `active_seeds = 1` produces exactly one
`tracker_announce` and ends with exactly one started torrent. -/
theorem C4_checking_announce :
    (∀ (st : SessionState) (now i τ : Nat),
      Alert.tracker_announce i τ ∈
        (tick now st).alerts.drop st.alerts.length →
      ∃ t, (tick now st).torrents[i]? = some t ∧ t.checked = true ∧
        t.paused = false ∧ t.lifecycle ≠ .checking) ∧
    countAnnounce (runTicks scenarioChecking (tickTimes 12)).alerts = 1 ∧
    numUnpaused (runTicks scenarioChecking (tickTimes 12)).torrents = 1 := by
  refine ⟨tick_announce_active, ?_, ?_⟩ <;> decide

/-- Witness: `C4_checking_announce` on a one-torrent session whose
torrent announces on the first tick. -/
theorem C4_checking_announce_witness :
    (Alert.tracker_announce 0 0 ∈ (tick 0 stW).alerts.drop stW.alerts.length) ∧
    ∃ t, (tick 0 stW).torrents[0]? = some t ∧ t.checked = true ∧
      t.paused = false ∧ t.lifecycle ≠ .checking :=
  ⟨by decide, C4_checking_announce.1 stW 0 0 0 (by decide)⟩

end LtVerify
